import Mathlib

/-!
# Verification of the ipod-format conversion pipeline

A shallow embedding of the core of the `ipod-format` repository
(planner, artwork resolver, tagging, validation, commit/deletion
filesystem operations, and the per-track pipeline of `cli.process_one`),
together with theorems settling the frozen claims about the
natural-language specification.

External effects (the `ffmpeg`/`ffprobe` subprocesses, the mutagen tag
library, the filesystem) are modelled explicitly: subprocess outcomes are
inputs of type `Except`/`ProbeResult`, the filesystem is a finite
association list from structured paths to file data, and every Python
function that the claims mention is transcribed as an executable Lean
definition.
-/

set_option linter.unusedVariables false

namespace IpodFormat

/-! ## Paths

Python `pathlib.Path` values, reduced to what the code uses: a containing
directory (rendered as a string, as `str(p.parent)` does) and a file
name.  `suffix`/`stem`/`with_suffix`/`with_name` follow CPython's rules:
the suffix is the part of the name from the last dot, provided that dot
is neither the first nor the last character of the name. -/

structure PyPath where
  dir : String
  name : String
  deriving DecidableEq, Repr

/-- Index (from the front) of the last `'.'` in a character list. -/
def lastDotIdx : List Char → Option Nat
  | [] => none
  | c :: cs =>
    match lastDotIdx cs with
    | some i => some (i + 1)
    | none => if c = '.' then some 0 else none

/-- CPython `PurePath.suffix` on a file name: `name[i:]` for the last dot
index `i` when `0 < i < len(name) - 1`, else `""`. -/
def pySuffix (name : String) : String :=
  let cs := name.data
  match lastDotIdx cs with
  | some i => if 0 < i ∧ i < cs.length - 1 then ⟨cs.drop i⟩ else ""
  | none => ""

/-- CPython `PurePath.stem`: the name with `pySuffix` removed. -/
def pyStem (name : String) : String :=
  let cs := name.data
  match lastDotIdx cs with
  | some i => if 0 < i ∧ i < cs.length - 1 then ⟨cs.take i⟩ else name
  | none => name

/-- Python `str.lower()` (ASCII range, which covers the extensions and
codec tags the code lower-cases). -/
def asciiLower (s : String) : String :=
  ⟨s.data.map (fun c =>
    if 'A' ≤ c ∧ c ≤ 'Z' then Char.ofNat (c.toNat + 32) else c)⟩

namespace PyPath

/-- `str(p)`: directory, separator, name. -/
def str (p : PyPath) : String := p.dir ++ "/" ++ p.name

/-- `p.suffix`. -/
def suffix (p : PyPath) : String := pySuffix p.name

/-- `p.stem`. -/
def stem (p : PyPath) : String := pyStem p.name

/-- `p.parent` rendered as a string. -/
def parentStr (p : PyPath) : String := p.dir

/-- `p.with_suffix ext`: same directory, stem with the new extension. -/
def with_suffix (p : PyPath) (ext : String) : PyPath :=
  { dir := p.dir, name := p.stem ++ ext }

/-- `p.with_name n`. -/
def with_name (p : PyPath) (n : String) : PyPath :=
  { dir := p.dir, name := n }

end PyPath

/-! ## File contents and the filesystem

File contents carry an opaque payload identifier plus the data the
validators inspect: the list of embedded cover images (APIC frames, each
an image with a decoded format and pixel dimensions).  The filesystem is
a finite association list from paths to contents. -/

/-- One embedded cover image, as PIL decodes it from an APIC frame:
its container format (`im.format`, e.g. `"JPEG"`/`"PNG"`) and its pixel
size (`im.size`). -/
structure Apic where
  format : String
  width : Nat
  height : Nat
  deriving DecidableEq, Repr

/-- Contents of one file: an opaque audio/bytes payload identifier and
the embedded cover images of its tag block. -/
structure FileData where
  payload : Nat
  apics : List Apic
  deriving DecidableEq, Repr

/-- A finite filesystem: association list from paths to contents.
Earlier entries shadow later ones. -/
structure FS where
  files : List (PyPath × FileData)
  deriving DecidableEq, Repr

namespace FS

/-- Contents at a path, if the file exists. -/
def lookup (fs : FS) (p : PyPath) : Option FileData :=
  (fs.files.find? (fun e => e.1 = p)).map (·.2)

/-- `Path.exists()`. -/
def hasFile (fs : FS) (p : PyPath) : Bool :=
  (fs.lookup p).isSome

/-- Remove a path (no-op when absent). -/
def remove (fs : FS) (p : PyPath) : FS :=
  ⟨fs.files.filter (fun e => ¬(e.1 = p))⟩

/-- Write contents at a path, replacing any existing file. -/
def set (fs : FS) (p : PyPath) (d : FileData) : FS :=
  ⟨(p, d) :: (fs.remove p).files⟩

/-- Remove every path in the list (best-effort cleanup). -/
def removeAll (fs : FS) (ps : List PyPath) : FS :=
  ps.foldl (fun acc p => acc.remove p) fs

end FS

/-! ## `app/validate.py` -/
/-- Outcome of one `ffprobe` invocation as `run_ffprobe_json` sees it:
either the subprocess fails (non-zero exit / no JSON — `ProcError` is
raised), or it returns a JSON document from which a single numeric field
may or may not be present. -/
inductive ProbeResult where
  /-- The subprocess failed; `run_ffprobe_json` raises `ProcError`. -/
  | failure
  /-- The subprocess returned JSON; the requested numeric entry is
  `some v` when present and `none` when missing. -/
  | json (value : Option ℚ)
  deriving DecidableEq, Repr

/-- Errors a pipeline stage can raise. -/
inductive PipeErr where
  /-- `ProcError` from `utils_ffmpeg` (external tool failed). -/
  | proc
  /-- `ValueError` from a validation check, with its message. -/
  | value (msg : String)
  /-- `FileNotFoundError` / `OSError` from a filesystem operation. -/
  | fileNotFound
  deriving DecidableEq, Repr

/-- `validate._probe_duration_seconds`: runs `ffprobe` (whose outcome is
the given `ProbeResult`); a subprocess failure propagates `ProcError`,
while a JSON reply yields `float(data.get("format", {}).get("duration", 0.0))`
— i.e. the reported duration, defaulting to `0` when the field is
missing. -/
def probe_duration_seconds : ProbeResult → Except PipeErr ℚ
  | .failure => .error .proc
  | .json v => .ok (v.getD 0)

/-- `validate.validate_duration_close`: probe both durations (an
unprobeable duration raises `ProcError`, which propagates), skip the
check when either is `0`, and raise `ValueError` when they differ by
more than the tolerance. -/
def validate_duration_close (srcProbe dstProbe : ProbeResult)
    (tolerance : ℚ) : Except PipeErr Unit :=
  match probe_duration_seconds srcProbe with
  | .error e => .error e
  | .ok sd =>
    match probe_duration_seconds dstProbe with
    | .error e => .error e
    | .ok dd =>
      if sd = 0 ∨ dd = 0 then .ok ()
      else if |sd - dd| > tolerance then .error (.value "Duration mismatch")
      else .ok ()

/-- `validate.validate_bitrate_if_encoded`: nothing to check unless the
track was encoded; otherwise probe the audio bit rate (`0` when the JSON
lacks it, `ProcError` when the probe fails) and raise unless it is
`320000` or at least `319000`. -/
def validate_bitrate_if_encoded (needs_encode : Bool)
    (brProbe : ProbeResult) : Except PipeErr Unit :=
  if !needs_encode then .ok ()
  else
    match brProbe with
    | .failure => .error .proc
    | .json v =>
      let br := v.getD 0
      if br ≠ 320000 ∧ br < 319000 then .error (.value "Audio bitrate too low")
      else .ok ()

/-- `validate.validate_id3_and_apic_500`: read the APIC frames of the
produced file; raise when there are none, when there is more than one,
when the single image's decoded format is not JPEG, or when its size is
not 500×500.  The function takes no settings: the format and the
dimensions are hard-coded. -/
def validate_id3_and_apic_500 (d : FileData) : Except PipeErr Unit :=
  match d.apics with
  | [] => .error (.value "No APIC found in output tags")
  | _ :: _ :: _ => .error (.value "More than one APIC found")
  | [pic] =>
    if pic.format ≠ "JPEG" then .error (.value "APIC is not JPEG")
    else if ¬(pic.width = 500 ∧ pic.height = 500) then
      .error (.value "APIC size is wrong")
    else .ok ()

/-- ASCII upper-casing of a format name (`"jpeg"` ↦ `"JPEG"`). -/
def asciiUpper (s : String) : String :=
  ⟨s.data.map (fun c =>
    if 'a' ≤ c ∧ c ≤ 'z' then Char.ofNat (c.toNat - 32) else c)⟩

/-- Refinement reference, written from the spec's words (not from the
code, which hard-codes its constants): the cover check is said to pass
exactly when the file holds a single cover whose pixel dimensions equal
the configured `art_target_px` square and whose image format equals the
configured `art_format` (`"jpeg"`/`"png"`, compared against PIL's
upper-case format name). -/
def specCoverCheckPasses (art_target_px : Nat) (art_format : String)
    (d : FileData) : Bool :=
  match d.apics with
  | [pic] =>
    pic.width = art_target_px ∧ pic.height = art_target_px ∧
      pic.format = asciiUpper art_format
  | _ => false

/-! ## `app/models.py` — the value types the claims need -/

/-- `models.DeleteMode`. -/
inductive DeleteMode where
  | trash
  | hard
  deriving DecidableEq, Repr

/-- `models.CollisionPolicy`. -/
inductive CollisionPolicy where
  | overwrite
  | skip
  | version
  deriving DecidableEq, Repr

/-- The slice of `models.TrackPlan` that the pipeline and the filesystem
operations consume. -/
structure TrackPlan where
  src : PyPath
  src_codec : String
  needs_encode : Bool
  target : PyPath
  temp_path : PyPath
  delete_mode : DeleteMode
  collision : CollisionPolicy
  deriving DecidableEq, Repr

/-! ## `app/fsops.py` -/

/-- The candidate `path.with_name(f"{base} ({i}){ext}")` probed by
`_versioned_name`. -/
def decoratedName (path : PyPath) (i : Nat) : PyPath :=
  path.with_name (pyStem path.name ++ " (" ++ toString i ++ ")" ++ pySuffix path.name)

/-- The `while True` probe loop of `_versioned_name`, made total with
explicit fuel: try `i`, `i+1`, … until a candidate does not exist.
`none` means the fuel ran out (the Python loop would keep probing). -/
def versionScan (fs : FS) (path : PyPath) : Nat → Nat → Option PyPath
  | 0, _ => none
  | fuel + 1, i =>
    let cand := decoratedName path i
    if fs.hasFile cand then versionScan fs path fuel (i + 1) else some cand

/-- `fsops._versioned_name`: probe decorated names sequentially starting
at `2`.  Fuel one larger than the filesystem's size is enough for any
filesystem in which the probe loop terminates within that many steps. -/
def versioned_name (fs : FS) (path : PyPath) : Option PyPath :=
  versionScan fs path (fs.files.length + 1) 2

/-- `os.replace(src, dst)`: a single atomic rename; raises when the
source file does not exist. -/
def os_replace (fs : FS) (src dst : PyPath) : Except PipeErr FS :=
  match fs.lookup src with
  | none => .error .fileNotFound
  | some d => .ok ((fs.remove src).set dst d)

/-- `fsops.atomic_commit`: move the temp file onto the final target
according to the collision policy, returning the effective target path.
`skip` returns the pre-existing target at once; `version` renames onto
the first free decorated name; `overwrite` (and the no-collision case)
renames onto the target itself. -/
def atomic_commit (plan : TrackPlan) (fs : FS) :
    Except PipeErr (PyPath × FS) :=
  if fs.hasFile plan.target then
    match plan.collision with
    | .skip => .ok (plan.target, fs)
    | .version =>
      match versioned_name fs plan.target with
      | Option.none => .error .fileNotFound
      | Option.some cand =>
        match os_replace fs plan.temp_path cand with
        | .error e => .error e
        | .ok fs2 => .ok (cand, fs2)
    | .overwrite =>
      match os_replace fs plan.temp_path plan.target with
      | .error e => .error e
      | .ok fs2 => .ok (plan.target, fs2)
  else
    match os_replace fs plan.temp_path plan.target with
    | .error e => .error e
    | .ok fs2 => .ok (plan.target, fs2)

/-- The platform trash facility behind `send2trash`: moving a path to
the recycle bin fails with an `OSError` when the path does not exist
(the library probes the path before trashing it).  `fsops.delete_source`
calls it without any guard. -/
def send2trash (fs : FS) (p : PyPath) : Except PipeErr FS :=
  if fs.hasFile p then .ok (fs.remove p) else .error .fileNotFound

/-- `Path.unlink()`: raises `FileNotFoundError` when the path is
missing. -/
def unlink (fs : FS) (p : PyPath) : Except PipeErr FS :=
  if fs.hasFile p then .ok (fs.remove p) else .error .fileNotFound

/-- `fsops.delete_source`: `trash` mode calls `send2trash` unguarded;
any other mode unlinks and swallows `FileNotFoundError`. -/
def delete_source (plan : TrackPlan) (fs : FS) : Except PipeErr FS :=
  match plan.delete_mode with
  | .trash => send2trash fs plan.src
  | .hard =>
    match unlink fs plan.src with
    | .error .fileNotFound => .ok fs
    | r => r

/-- `fsops.cleanup_paths`.  Modelled from the spec: the function is
imported by `cli.py` but absent from `src/` (no `fsops.py` revision in
the tree defines it); §4.3 "Cleaned" specifies that all temporary
artifacts passed to cleanup are removed best-effort and that cleanup
failures are never escalated.  So: remove each given path, never
raising. -/
def cleanup_paths (fs : FS) (ps : List PyPath) : FS :=
  fs.removeAll ps

/-! ## `app/artwork.py` -/

/-- `models.ArtSource.kind`. -/
inductive ArtKind where
  | folder
  | embedded
  | none
  deriving DecidableEq, Repr

/-- `models.ArtSource` as `artwork.py` constructs it. -/
structure ArtSource where
  kind : ArtKind
  file_path : Option PyPath := Option.none
  stream_index : Option Nat := Option.none
  detail : String := ""
  deriving DecidableEq, Repr

/-- One entry of the `streams` array that `ffprobe -select_streams v`
returns: global stream index, the `attached_pic` disposition flag, codec
name, and the (possibly missing) pixel dimensions. -/
structure StreamInfo where
  index : Nat
  attached_pic : Bool
  codec_name : String
  width : Option Nat
  height : Option Nat
  deriving DecidableEq, Repr

/-- `artwork._FOLDER_CANDIDATES`. -/
def _FOLDER_CANDIDATES : List String :=
  ["cover.jpg", "cover.jpeg", "cover.png", "folder.jpg", "folder.jpeg", "folder.png"]

/-- `artwork._find_folder_art`: first conventionally named cover file
that exists in the directory (`is_file` is the filesystem predicate). -/
def find_folder_art (is_file : PyPath → Bool) (directory : String) : Option PyPath :=
  (_FOLDER_CANDIDATES.map (fun n => PyPath.mk directory n)).find? is_file

/-- Python `f"{x}"` for an optional number: `None` renders as `"None"`. -/
def optNatStr : Option Nat → String
  | Option.none => "None"
  | Option.some n => toString n

/-- The `detail` string `detect_art_source` builds for an embedded
stream. -/
def embeddedDetail (st : StreamInfo) : String :=
  "embedded:0:" ++ toString st.index ++ " (" ++ st.codec_name ++ " " ++
    optNatStr st.width ++ "x" ++ optNatStr st.height ++ ")"

/-- `artwork.detect_art_source`: folder art first; otherwise probe the
video streams (`probe` is the `ffprobe` outcome) — a `ProcError` from
the probe is caught and degrades to `kind=none`; the first
`attached_pic` stream wins, else the first video stream, else none. -/
def detect_art_source (is_file : PyPath → Bool) (plan : TrackPlan)
    (probe : Except PipeErr (List StreamInfo)) : ArtSource :=
  match find_folder_art is_file plan.src.dir with
  | Option.some folder =>
    { kind := .folder, file_path := Option.some folder, detail := folder.name }
  | Option.none =>
    match probe with
    | .error _ => { kind := .none, detail := "no art" }
    | .ok streams =>
      match streams.find? (·.attached_pic) with
      | Option.some st =>
        { kind := .embedded, stream_index := Option.some st.index,
          detail := embeddedDetail st }
      | Option.none =>
        match streams with
        | st0 :: _ =>
          { kind := .embedded, stream_index := Option.some st0.index,
            detail := embeddedDetail st0 }
        | [] => { kind := .none, detail := "no art" }

/-- `artwork._temp_art_path`. -/
def temp_art_path (plan : TrackPlan) (suffix : String) : PyPath :=
  plan.temp_path.with_suffix suffix

/-- `artwork.extract_art_to_file`: no art yields `None`; folder art is
copied to a temp path keeping its extension; embedded art invokes the
external transcoder (`ffmpeg` is its outcome) to decode one frame — and
a failure of that invocation propagates as an uncaught `ProcError`
(there is no `try`/`except` in this function). -/
def extract_art_to_file (plan : TrackPlan) (art : ArtSource)
    (ffmpeg : Except PipeErr Unit) : Except PipeErr (Option PyPath) :=
  match art.kind with
  | .none => .ok Option.none
  | .folder =>
    match art.file_path with
    | Option.some fp => .ok (Option.some (temp_art_path plan (asciiLower (pySuffix fp.name))))
    | Option.none => .ok Option.none
  | .embedded =>
    match art.stream_index with
    | Option.some _ =>
      match ffmpeg with
      | .error e => .error e
      | .ok _ => .ok (Option.some (temp_art_path plan ".art_src.png"))
    | Option.none => .ok Option.none

/-- `artwork.normalize_art_to_jpeg_500`: skipped (returns `None`) when
there is no raw image or the raw image file does not exist; otherwise
the external transcoder scales/crops or pads it to the configured square
and the normalized image path is returned (an `ffmpeg` failure again
propagates). -/
def normalize_art_to_jpeg_500 (plan : TrackPlan) (exists_fn : PyPath → Bool)
    (src_image : Option PyPath) (ffmpeg : Except PipeErr Unit) :
    Except PipeErr (Option PyPath) :=
  match src_image with
  | Option.none => .ok Option.none
  | Option.some p =>
    if exists_fn p then
      match ffmpeg with
      | .error e => .error e
      | .ok _ => .ok (Option.some (temp_art_path plan ".cover_500.jpg"))
    else .ok Option.none

/-! ## `app/tagging.py`

Source tag values as mutagen exposes them: scalars (strings, numbers,
`None`) and sequences of scalars (lists of strings, MP4 `trkn` tuples).
The reduced tag map built by `read_source_tags` and the ID3 text frames
added by `write_id3_v23_with_apic` are string-keyed dictionaries,
modelled as association lists with Python-dict update semantics. -/

/-- A scalar mutagen tag value. -/
inductive Prim where
  | str (s : String)
  | num (n : Nat)
  | null
  deriving DecidableEq, Repr

/-- Python `str(x)`. -/
def Prim.toStr : Prim → String
  | .str s => s
  | .num n => toString n
  | .null => "None"

/-- Python truthiness of a scalar. -/
def Prim.truthy : Prim → Bool
  | .str s => s ≠ ""
  | .num n => n ≠ 0
  | .null => false

/-- A mutagen tag value: a scalar or a list/tuple of scalars. -/
inductive MVal where
  | prim (p : Prim)
  | seq (l : List Prim)
  deriving DecidableEq, Repr

/-- Python truthiness of a tag value. -/
def MVal.truthy : MVal → Bool
  | .prim p => p.truthy
  | .seq l => l ≠ []

/-- `str(_get_first(v))`: head of a nonempty sequence, else the value
itself (an empty list stringifies as `"[]"`). -/
def MVal.firstStr : MVal → String
  | .prim p => p.toStr
  | .seq (p :: _) => p.toStr
  | .seq [] => "[]"

/-- Dictionary lookup (`d.get(k)`), first binding wins. -/
def dget (m : List (String × String)) (k : String) : Option String :=
  (m.find? (·.1 = k)).map (·.2)

/-- Dictionary membership (`k in d`). -/
def dhas (m : List (String × String)) (k : String) : Bool :=
  m.any (·.1 = k)

/-- Dictionary update (`d[k] = v`): replace the first binding of `k` in
place, or append a new binding at the end. -/
def dset : List (String × String) → String → String → List (String × String)
  | [], k, v => [(k, v)]
  | e :: m, k, v => if e.1 = k then (k, v) :: m else e :: dset m k v

/-- The raw tag map of the source file (`audio.tags`), or `none` when
mutagen returns no object / no tags. -/
def SrcTags := List (String × MVal)

/-- `audio.tags.get(k)`. -/
def sget (m : SrcTags) (k : String) : Option MVal :=
  ((m : List (String × MVal)).find? (·.1 = k)).map (·.2)

/-- `tagging.read_source_tags`'s `pull_any`: first of the given keys
whose value is not `None`-absent. -/
def pull_any (m : SrcTags) (keys : List String) : Option MVal :=
  keys.findSome? (sget m)

/-- The `f"{a}/{b}"`-style number handling shared by track and disc:
given the `pull_any` result, produce the updates to the reduced map for
the number key (and possibly the total key). -/
def numberPair (tags : List (String × String)) (numKey totalKey : String) :
    Option MVal → List (String × String)
  | Option.some (.seq (p :: rest)) =>
    let t1 := dset tags numKey (if p ≠ Prim.null ∧ p ≠ Prim.num 0 then p.toStr else "")
    match rest with
    | q :: _ => if q.truthy then dset t1 totalKey q.toStr else t1
    | [] => t1
  | Option.some (.seq []) => dset tags numKey "[]"
  | Option.some (.prim p) => dset tags numKey p.toStr
  | Option.none => tags

/-- The `totaltracks`/`totaldiscs` fallback: set the total key from the
first value when one was found and the key is not already present. -/
def totalFallback (tags : List (String × String)) (totalKey : String) :
    Option MVal → List (String × String)
  | Option.some v => if ¬dhas tags totalKey then dset tags totalKey v.firstStr else tags
  | Option.none => tags

/-- The first loop of `read_source_tags`: copy each generic text key
into the reduced map when its source value is truthy. -/
def copy_text_tags (m : SrcTags) (keys : List String)
    (t : List (String × String)) : List (String × String) :=
  keys.foldl
    (fun t k =>
      match sget m k with
      | Option.some v => if v.truthy then dset t k v.firstStr else t
      | Option.none => t) t

/-- `tagging.read_source_tags`: build the reduced tag map.  A source
with no tag object yields just a title from the filename stem; otherwise
the six plain text keys are copied when truthy, track/disc numbers are
pulled from their format-specific spellings, and — crucially — the title
falls back to the filename stem when still missing or empty.
`reduced_tags` is the map before the title fallback. -/
def reduced_tags (m : SrcTags) : List (String × String) :=
  let tags :=
    copy_text_tags m ["artist", "album", "albumartist", "title", "date", "genre"] []
  let tags := numberPair tags "track" "tracktotal"
    (pull_any m ["tracknumber", "track", "trkn"])
  let tags := totalFallback tags "tracktotal"
    (pull_any m ["totaltracks", "tracktotal"])
  let tags := numberPair tags "disc" "disctotal"
    (pull_any m ["discnumber", "disc", "disk"])
  totalFallback tags "disctotal"
    (pull_any m ["totaldiscs", "disctotal"])

def read_source_tags (stem : String) (src : Option SrcTags) :
    List (String × String) :=
  match src with
  | Option.none => [("title", stem)]
  | Option.some m =>
    let tags := reduced_tags m
    if (dget tags "title").getD "" = "" then dset tags "title" stem else tags

/-- `write_id3_v23_with_apic`'s `set_text` helper: add the frame only
when the value is present and truthy. -/
def set_text (frames : List (String × String)) (frameId : String) :
    Option String → List (String × String)
  | Option.some s => if s ≠ "" then dset frames frameId s else frames
  | Option.none => frames

/-- Python `a or b` on two optional strings (used for TPE2). -/
def orTruthy (a b : Option String) : Option String :=
  match a with
  | Option.some s => if s ≠ "" then Option.some s else b
  | Option.none => b

/-- The text frames `tagging.write_id3_v23_with_apic` adds to the temp
file from the reduced tag map: TIT2/TALB/TPE1/TPE2/TCON via `set_text`,
TRCK and TPOS as `number` or `number/total`, TDRC from the date. -/
def write_text_frames (src_tags : List (String × String)) :
    List (String × String) :=
  let f := set_text [] "TIT2" (dget src_tags "title")
  let f := set_text f "TALB" (dget src_tags "album")
  let f := set_text f "TPE1" (dget src_tags "artist")
  let f := set_text f "TPE2"
    (orTruthy (dget src_tags "albumartist") (dget src_tags "album_artist"))
  let f := set_text f "TCON" (dget src_tags "genre")
  let trk := (dget src_tags "track").getD ""
  let trkTotal := (dget src_tags "tracktotal").getD ""
  let f := if trk ≠ "" ∧ trkTotal ≠ "" then dset f "TRCK" (trk ++ "/" ++ trkTotal)
           else if trk ≠ "" then dset f "TRCK" trk else f
  let dsc := (dget src_tags "disc").getD ""
  let dscTotal := (dget src_tags "disctotal").getD ""
  let f := if dsc ≠ "" ∧ dscTotal ≠ "" then dset f "TPOS" (dsc ++ "/" ++ dscTotal)
           else if dsc ≠ "" then dset f "TPOS" dsc else f
  let date := (dget src_tags "date").getD ""
  if date ≠ "" then dset f "TDRC" date else f

/-- The APIC rewrite performed by `tagging.write_id3_v23_with_apic` on
the temp file: all existing APIC frames are deleted; when a normalized
cover exists, `_load_png_bytes` re-checks that it is exactly 500×500
(raising `ValueError` otherwise) and a single front-cover APIC holding
it is added. -/
def write_apic (existing : List Apic) (png500 : Option Apic) :
    Except PipeErr (List Apic) :=
  match png500 with
  | Option.none => .ok []
  | Option.some img =>
    if ¬(img.width = 500 ∧ img.height = 500) then
      .error (.value "APIC PNG not 500x500")
    else
      .ok [img]

/-! ## `app/planner.py`

The planner walks a filesystem tree (modelled by its `resolve` /
`is_file` / `is_dir` / `walk` primitives), keeps the files whose
extension appears in the codec table, sorts them, and builds one
`TrackPlan` per file.  The per-plan temporary path embeds a fresh
`uuid4().hex` value, modelled as an explicit stream of opaque strings
indexed by the file's position. -/

/-- The filesystem operations `_iter_audio_files` relies on, over an
unchanged directory tree: path canonicalisation, file and directory
tests, and the `os.walk` enumeration (each entry a root directory and
its file names, in walk order). -/
structure FSTree where
  resolve : PyPath → PyPath
  is_file : PyPath → Bool
  is_dir : PyPath → Bool
  walk : PyPath → List (String × List String)

/-- `planner._AUDIO_EXTS`: extension → canonical codec tag. -/
def _AUDIO_EXTS : List (String × String) :=
  [(".flac", "flac"), (".alac", "alac"), (".m4a", "m4a"), (".aac", "m4a"),
   (".wav", "wav"), (".aiff", "aiff"), (".aif", "aiff"), (".ogg", "ogg"),
   (".oga", "ogg"), (".mp3", "mp3")]

/-- Lookup in the codec table (`ext in _AUDIO_EXTS` / `_AUDIO_EXTS[ext]`). -/
def audioCodec? (ext : String) : Option String :=
  (_AUDIO_EXTS.find? (·.1 = ext)).map (·.2)

/-- The files contributed by one input path: the path is resolved first;
a file is kept when its (lower-cased) suffix is in the codec table; a
directory is walked and each matching file name is appended under its
walk root (note: walked entries are *not* resolved); anything else is
silently skipped. -/
def iterOneInput (t : FSTree) (p : PyPath) : List PyPath :=
  let p := t.resolve p
  if t.is_file p then
    if (audioCodec? (asciiLower (pySuffix p.name))).isSome then [p] else []
  else if t.is_dir p then
    (t.walk p).foldr
      (fun entry acc =>
        (entry.2.filter (fun n => (audioCodec? (asciiLower (pySuffix n))).isSome)).map
          (fun n => PyPath.mk entry.1 n) ++ acc)
      []
  else []

/-- Python string `<`: code-point lexicographic comparison. -/
def strLtb : List Char → List Char → Bool
  | [], [] => false
  | [], _ :: _ => true
  | _ :: _, [] => false
  | a :: as, b :: bs => if a < b then true else if b < a then false else strLtb as bs

/-- The `files.sort()` relation: Python sorts `Path` objects by their
rendered string, and `x ≤ y` for a total order is `¬ y < x`. -/
def pathStrLE (p q : PyPath) : Prop := strLtb q.str.data p.str.data = false

instance : DecidableRel pathStrLE := fun p q =>
  inferInstanceAs (Decidable (_ = false))

/-- `planner._iter_audio_files`: gather every input's files, then sort
into a stable, human-friendly order. -/
def _iter_audio_files (t : FSTree) (paths : List PyPath) : List PyPath :=
  List.insertionSort pathStrLE ((paths.map (iterOneInput t)).flatten)

/-- The planner-relevant slice of `models.Settings`. -/
structure PlannerSettings where
  delete_mode : DeleteMode
  collision : CollisionPolicy
  deriving DecidableEq, Repr

/-- `planner._temp_path_for` combined with the plan construction of
`build_run_plan`: one `TrackPlan` for a discovered source file, with the
given fresh `uuid4().hex` string. -/
def mkPlan (s : PlannerSettings) (uuid : String) (src : PyPath) : TrackPlan :=
  let ext := asciiLower (pySuffix src.name)
  let codec := (audioCodec? ext).getD ""
  { src := src
    src_codec := codec
    needs_encode := codec ≠ "mp3"
    target := src.with_suffix ".mp3"
    temp_path := PyPath.mk src.dir (".~" ++ src.stem ++ "." ++ uuid ++ ".tmp")
    delete_mode := s.delete_mode
    collision := s.collision }

/-- The final sort key of `build_run_plan`:
`(str(p.src.parent), p.src.name)`. -/
def planKey (p : TrackPlan) : String × String :=
  (p.src.parentStr, p.src.name)

/-- Python tuple `<` on two string pairs: lexicographic. -/
def tupLt (a b : String × String) : Bool :=
  strLtb a.1.data b.1.data || (a.1 = b.1 && strLtb a.2.data b.2.data)

/-- The `plans.sort(key=...)` relation: `p ≤ q` iff `¬ key q < key p`. -/
def planLE (p q : TrackPlan) : Prop := tupLt (planKey q) (planKey p) = false

instance : DecidableRel planLE := fun p q =>
  inferInstanceAs (Decidable (_ = false))

/-- `planner.build_run_plan`: discover the audio files, fail with
`PlanError` when there are none, build one plan per file (drawing the
`i`-th fresh uuid for the `i`-th discovered file), and sort the plans by
`(str(parent), name)`. -/
def build_run_plan (t : FSTree) (input_paths : List PyPath)
    (s : PlannerSettings) (uuids : Nat → String) :
    Except String (List TrackPlan) :=
  let audio_files := _iter_audio_files t input_paths
  if audio_files = [] then
    .error "No supported audio files found."
  else
    .ok (List.insertionSort planLE
      (audio_files.enum.map (fun e => mkPlan s (uuids e.1) e.2)))

/-- A plan with its (randomly generated) temporary path erased, for
stating determinism up to the fresh uuid. -/
def stripTemp (p : TrackPlan) : TrackPlan :=
  { p with temp_path := PyPath.mk "" "" }

/-! ## `app/cli.py` — `process_one`, the per-track pipeline

One strictly sequential run of the pipeline for one plan.  External
subprocess outcomes are inputs (`PipeParams`); the filesystem is
threaded explicitly.  The `try`/`except` of `process_one` is modelled by
the `failed` outcomes: every failure performs the best-effort cleanup of
the `except` block (delete the abandoned temp output, remove the temp
art files) and records the stage that raised. -/

/-- The pipeline-relevant slice of `models.Settings`. -/
structure PipelineSettings where
  replace_in_place : Bool
  deriving DecidableEq, Repr

/-- Outcomes of the external invocations made during one
`process_one` run.  An encode failure may leave a partially written file
at the temp path (`some d`) or nothing (`none`). -/
structure PipeParams where
  encodeResult : Except (Option FileData) FileData
  srcDurProbe : ProbeResult
  dstDurProbe : ProbeResult
  bitrateProbe : ProbeResult
  resolvePath : PyPath → PyPath

/-- The pipeline stage at which an exception was raised. -/
inductive Stage where
  | audio
  | tags
  | validation
  | commit
  | deleteSrc
  deriving DecidableEq, Repr

/-- Result of `process_one`: success with the effective target path and
the deletion flag, or failure at some stage; both carry the final
filesystem. -/
inductive Outcome where
  | ok (finalTarget : PyPath) (deleted : Bool) (fs : FS)
  | failed (st : Stage) (fs : FS)
  deriving DecidableEq, Repr

/-- The `except` block of `process_one`: delete the abandoned temp
output if it exists, then clean up the temp art files — both
best-effort, touching nothing else. -/
def failCleanup (plan : TrackPlan) (artPaths : List PyPath) (fs : FS) : FS :=
  cleanup_paths (fs.remove plan.temp_path) artPaths

/-- The AUDIO stage: encode via the external transcoder (writing its
produced data at the temp path) or copy the source bytes to the temp
path; `shutil.copy2` of a missing source raises. -/
def audio_stage (plan : TrackPlan) (pp : PipeParams) (fs : FS) :
    Except (Option FileData) FS :=
  if plan.needs_encode then
    match pp.encodeResult with
    | .error leftover => .error leftover
    | .ok d => .ok (fs.set plan.temp_path d)
  else
    match fs.lookup plan.src with
    | Option.none => .error Option.none
    | Option.some d => .ok (fs.set plan.temp_path d)

/-- The VALIDATION stage: the three checks of `process_one`, in order,
on the tag block `d` of the produced temp file. -/
def validation_stage (plan : TrackPlan) (pp : PipeParams) (d : FileData) :
    Except PipeErr Unit :=
  match validate_duration_close pp.srcDurProbe pp.dstDurProbe (1 / 2) with
  | .error e => .error e
  | .ok _ =>
    match validate_bitrate_if_encoded plan.needs_encode pp.bitrateProbe with
    | .error e => .error e
    | .ok _ => validate_id3_and_apic_500 d

/-- `cli.process_one`.  AUDIO: encode to the temp path (external) or
copy the source bytes there.  TAGS: rewrite the temp file's tag block —
text frames from `read_source_tags` (abstracted into the payload) and
the APIC rewrite of `write_apic`.  VALIDATION: the three checks in
order.  COMMIT: `atomic_commit`.  Then the deletion guard and the source
deletion, and finally temp-art cleanup. -/
def process_one (plan : TrackPlan) (png500 : Option Apic)
    (artPaths : List PyPath) (pp : PipeParams) (st : PipelineSettings)
    (fs : FS) : Outcome :=
  match audio_stage plan pp fs with
  | .error leftover =>
    let fs1 := match leftover with
               | Option.some d => fs.set plan.temp_path d
               | Option.none => fs
    .failed .audio (failCleanup plan artPaths fs1)
  | .ok fs1 =>
    match fs1.lookup plan.temp_path with
    | Option.none => .failed .tags (failCleanup plan artPaths fs1)
    | Option.some td =>
      match write_apic td.apics png500 with
      | .error _ => .failed .tags (failCleanup plan artPaths fs1)
      | .ok newApics =>
        let fs2 := fs1.set plan.temp_path { td with apics := newApics }
        match validation_stage plan pp ((fs2.lookup plan.temp_path).getD ⟨0, []⟩) with
        | .error _ => .failed .validation (failCleanup plan artPaths fs2)
        | .ok _ =>
          match atomic_commit plan fs2 with
          | .error _ => .failed .commit (failCleanup plan artPaths fs2)
          | .ok res =>
            let finalTarget := res.1
            let fs3 := res.2
            let do_delete := asciiLower plan.src_codec ≠ "mp3"
            if do_delete ∧ st.replace_in_place ∧
                pp.resolvePath finalTarget ≠ pp.resolvePath plan.src then
              match delete_source plan fs3 with
              | .error _ => .failed .deleteSrc (failCleanup plan artPaths fs3)
              | .ok fs4 => .ok finalTarget true (cleanup_paths fs4 artPaths)
            else
              .ok finalTarget false (cleanup_paths fs3 artPaths)

/-- The stages that precede the commit (the three-stage window the
atomicity claim is about). -/
def Stage.beforeCommit : Stage → Bool
  | .audio | .tags | .validation => true
  | .commit | .deleteSrc => false

/-- Whether a pipeline outcome ever reached the commit: success did, and
so did failures at or after the commit stage. -/
def Outcome.reachedCommit : Outcome → Bool
  | .ok _ _ _ => true
  | .failed st _ => !st.beforeCommit

/-! ## Filesystem lemmas -/

theorem FS.lookup_set_self (fs : FS) (p : PyPath) (d : FileData) :
    (fs.set p d).lookup p = some d := by
  simp [FS.set, FS.lookup]

theorem FS.lookup_remove_ne (fs : FS) (p q : PyPath) (h : q ≠ p) :
    (fs.remove p).lookup q = fs.lookup q := by
  unfold FS.remove FS.lookup
  congr 1
  induction fs.files with
  | nil => rfl
  | cons e es ih =>
    simp only [List.filter_cons]
    by_cases he : e.1 = p
    · simp only [he, decide_True, not_true, decide_False, Bool.not_true]
      rw [if_neg (by simp)]
      rw [List.find?_cons_of_neg _
        (by simp only [he, decide_eq_true_eq]; exact fun hpq => h hpq.symm)]
      exact ih
    · rw [if_pos (by simpa using he)]
      by_cases hq : e.1 = q
      · rw [List.find?_cons_of_pos _ (by simpa using hq),
          List.find?_cons_of_pos _ (by simpa using hq)]
      · rw [List.find?_cons_of_neg _ (by simpa using hq),
          List.find?_cons_of_neg _ (by simpa using hq)]
        exact ih

theorem FS.lookup_set_ne (fs : FS) (p q : PyPath) (d : FileData) (h : q ≠ p) :
    (fs.set p d).lookup q = fs.lookup q := by
  unfold FS.set
  show FS.lookup ⟨((p, d) :: (fs.remove p).files : List (PyPath × FileData))⟩ q = _
  unfold FS.lookup
  rw [List.find?_cons_of_neg _ (by simpa using fun hpq : p = q => h hpq.symm)]
  exact FS.lookup_remove_ne fs p q h

theorem FS.lookup_removeAll_ne (ps : List PyPath) (fs : FS) (q : PyPath)
    (h : q ∉ ps) : (fs.removeAll ps).lookup q = fs.lookup q := by
  induction ps generalizing fs with
  | nil => rfl
  | cons p ps ih =>
    have hq : q ≠ p := by rintro rfl; exact h (List.mem_cons_self _ _)
    have hq' : q ∉ ps := fun hm => h (List.mem_cons_of_mem _ hm)
    show FS.lookup (FS.removeAll (fs.remove p) ps) q = _
    rw [ih (fs.remove p) hq', FS.lookup_remove_ne fs p q hq]

theorem failCleanup_lookup_ne (plan : TrackPlan) (artPaths : List PyPath)
    (fs : FS) (q : PyPath) (hq : q ≠ plan.temp_path) (hart : q ∉ artPaths) :
    (failCleanup plan artPaths fs).lookup q = fs.lookup q := by
  unfold failCleanup cleanup_paths
  rw [FS.lookup_removeAll_ne _ _ _ hart, FS.lookup_remove_ne _ _ _ hq]

/-! ## C2 — the cover-image validation check -/

/-- C2, counterexample.  The claim says the check passes iff the single
cover matches the *configured* size (`settings.art_target_px`) and
format (`settings.art_format`).  With `art_target_px = 600`,
`art_format = "jpeg"` and a produced file holding exactly one 600×600
JPEG cover, the spec-side condition holds but
`validate_id3_and_apic_500` fails: the check compares against the
hard-coded 500×500, not against the settings. -/
theorem C2_counterexample :
    (validate_id3_and_apic_500 ⟨0, [⟨"JPEG", 600, 600⟩]⟩).isOk = false ∧
      specCoverCheckPasses 600 "jpeg" ⟨0, [⟨"JPEG", 600, 600⟩]⟩ = true := by
  exact ⟨rfl, rfl⟩

/-- C2, amended: the cover-image validation check passes iff the file
contains exactly one embedded cover image that decodes as a JPEG of
exactly 500×500 pixels — the constants are hard-coded in
`validate_id3_and_apic_500` (matching the default settings), not taken
from the configured `art_target_px`/`art_format`. -/
theorem C2_cover_check_characterisation (d : FileData) :
    (validate_id3_and_apic_500 d).isOk = true ↔
      ∃ a, d.apics = [a] ∧ a.format = "JPEG" ∧ a.width = 500 ∧ a.height = 500 := by
  unfold validate_id3_and_apic_500
  match hd : d.apics with
  | [] => simp [Except.isOk, Except.toBool]
  | a :: b :: l => simp [Except.isOk, Except.toBool]
  | [pic] =>
    by_cases hf : pic.format = "JPEG"
    · by_cases hw : pic.width = 500 ∧ pic.height = 500
      · simp [hf, hw, Except.isOk, Except.toBool]
      · simp only [hf, ne_eq, not_true_eq_false, if_false, hw, not_false_eq_true,
          if_true, Except.isOk, Except.toBool]
        constructor
        · intro h; cases h
        · rintro ⟨a, ha, -, hw', hh'⟩
          rw [List.cons.injEq] at ha
          exact absurd ⟨ha.1 ▸ hw', ha.1 ▸ hh'⟩ hw
    · simp only [ne_eq, hf, not_false_eq_true, if_true, Except.isOk, Except.toBool]
      constructor
      · intro h; cases h
      · rintro ⟨a, ha, hfa, -⟩
        rw [List.cons.injEq] at ha
        exact absurd (ha.1 ▸ hfa) hf

/-! ## C7 — the duration validation check -/

/-- C7, counterexample.  The claim says the track is never failed by the
duration check when a duration cannot be probed.  But when `ffprobe`
itself fails (non-zero exit), `run_ffprobe_json` raises `ProcError` and
`validate_duration_close` propagates it — here the source duration
cannot be probed, yet the check raises and the track fails. -/
theorem C7_counterexample :
    validate_duration_close ProbeResult.failure
      (ProbeResult.json (Option.some 3)) (1 / 2) = .error .proc := rfl

/-- C7, amended: when both probes return JSON, the check fails iff both
reported durations are nonzero (a missing duration reads as `0`) and
they differ by more than the 0.5 s tolerance; but a hard prober failure
on either side propagates as a `ProcError` (failing the track) instead
of being skipped. -/
theorem C7_duration_check_characterisation :
    (∀ s d : Option ℚ,
      (validate_duration_close (ProbeResult.json s) (ProbeResult.json d)
        (1 / 2)).isOk = false ↔
        (s.getD 0 ≠ 0 ∧ d.getD 0 ≠ 0 ∧ |s.getD 0 - d.getD 0| > 1 / 2)) ∧
    (∀ dp, validate_duration_close ProbeResult.failure dp (1 / 2) =
      .error .proc) ∧
    (∀ s, validate_duration_close (ProbeResult.json s) ProbeResult.failure
      (1 / 2) = .error .proc) := by
  refine ⟨fun s d => ?_, fun dp => rfl, fun s => rfl⟩
  unfold validate_duration_close probe_duration_seconds
  dsimp only
  by_cases hz : s.getD 0 = 0 ∨ d.getD 0 = 0
  · rw [if_pos hz]
    simp only [Except.isOk, Except.toBool]
    constructor
    · intro h; cases h
    · rintro ⟨hs, hd, -⟩
      rcases hz with h | h
      exacts [absurd h hs, absurd h hd]
  · rw [if_neg hz]
    push_neg at hz
    by_cases hgt : |s.getD 0 - d.getD 0| > 1 / 2
    · rw [if_pos hgt]
      simp only [Except.isOk, Except.toBool]
      exact ⟨fun _ => ⟨hz.1, hz.2, hgt⟩, fun _ => by trivial⟩
    · rw [if_neg hgt]
      simp only [Except.isOk, Except.toBool]
      constructor
      · intro h; cases h
      · rintro ⟨-, -, h⟩
        exact absurd h hgt

/-! ## C8 — deleting a missing source -/

/-- C8, counterexample.  The claim says a missing source is treated as
already-deleted under both deletion modes.  Under `trash` mode,
`delete_source` hands the path to the trash facility with no guard, so a
missing source raises, as this concrete empty filesystem shows. -/
theorem C8_counterexample :
    delete_source
      { src := ⟨"/m", "a.flac"⟩, src_codec := "flac", needs_encode := true,
        target := ⟨"/m", "a.mp3"⟩, temp_path := ⟨"/m", ".~a.x.tmp"⟩,
        delete_mode := .trash, collision := .overwrite } ⟨[]⟩ =
      .error .fileNotFound := rfl

/-- C8, amended: only the `permanent`/`hard` branch guards against a
vanished source (it swallows `FileNotFoundError` and succeeds); the
`trash` branch calls `send2trash` unguarded, so a missing source is an
error there. -/
theorem C8_delete_missing_source (plan : TrackPlan) (fs : FS)
    (hmiss : fs.hasFile plan.src = false) :
    (plan.delete_mode = .hard → delete_source plan fs = .ok fs) ∧
    (plan.delete_mode = .trash → delete_source plan fs = .error .fileNotFound) := by
  constructor
  · intro hm
    unfold delete_source unlink
    rw [hm]
    simp [hmiss]
  · intro hm
    unfold delete_source send2trash
    rw [hm]
    simp [hmiss]

/-- C8, witness: a concrete plan in `hard` mode whose source is absent
deletes without error. -/
theorem C8_witness :
    FS.hasFile ⟨[]⟩ ⟨"/m", "a.flac"⟩ = false ∧
    delete_source
      { src := ⟨"/m", "a.flac"⟩, src_codec := "flac", needs_encode := true,
        target := ⟨"/m", "a.mp3"⟩, temp_path := ⟨"/m", ".~a.y.tmp"⟩,
        delete_mode := .hard, collision := .overwrite } ⟨[]⟩ = .ok ⟨[]⟩ :=
  ⟨rfl,
    (C8_delete_missing_source
      { src := ⟨"/m", "a.flac"⟩, src_codec := "flac", needs_encode := true,
        target := ⟨"/m", "a.mp3"⟩, temp_path := ⟨"/m", ".~a.y.tmp"⟩,
        delete_mode := .hard, collision := .overwrite } ⟨[]⟩ rfl).1 rfl⟩

/-! ## C3 — degradation of artwork failures -/

/-- C3, counterexample.  The claim says `extract_art_to_file` converts
an external-process failure into the no-art outcome.  It does not: for
an embedded art source, a failing `ffmpeg` invocation propagates its
`ProcError` out of `extract_art_to_file` (which has no `try`/`except`),
aborting the plan. -/
theorem C3_counterexample :
    extract_art_to_file
      { src := ⟨"/m", "a.flac"⟩, src_codec := "flac", needs_encode := true,
        target := ⟨"/m", "a.mp3"⟩, temp_path := ⟨"/m", ".~a.z.tmp"⟩,
        delete_mode := .trash, collision := .overwrite }
      { kind := .embedded, stream_index := Option.some 0 }
      (.error .proc) = .error .proc := rfl

/-- C3, amended: a *probing* failure degrades gracefully —
`detect_art_source` catches the prober's `ProcError` and yields
`kind=none` when no folder art exists — and extraction of a no-art
source yields no art without error; but an *extraction* failure for an
embedded source propagates the `ProcError` uncaught. -/
theorem C3_probe_degrades_extract_propagates :
    (∀ (isf : PyPath → Bool) (plan : TrackPlan) (e : PipeErr),
      find_folder_art isf plan.src.dir = Option.none →
      (detect_art_source isf plan (.error e)).kind = ArtKind.none) ∧
    (∀ (plan : TrackPlan) (art : ArtSource) (ffm : Except PipeErr Unit),
      art.kind = ArtKind.none →
      extract_art_to_file plan art ffm = .ok Option.none) ∧
    (∀ (plan : TrackPlan) (art : ArtSource) (idx : Nat) (e : PipeErr),
      art.kind = ArtKind.embedded → art.stream_index = Option.some idx →
      extract_art_to_file plan art (.error e) = .error e) := by
  refine ⟨fun isf plan e hf => ?_, fun plan art ffm hk => ?_,
    fun plan art idx e hk hi => ?_⟩
  · unfold detect_art_source
    rw [hf]
  · unfold extract_art_to_file
    rw [hk]
  · unfold extract_art_to_file
    rw [hk, hi]

/-- C3, witness: with no folder art and a failing prober, a concrete
plan's art source is `kind=none`; extraction then yields no art. -/
theorem C3_witness :
    find_folder_art (fun _ => false) "/m" = Option.none ∧
    (detect_art_source (fun _ => false)
      { src := ⟨"/m", "b.flac"⟩, src_codec := "flac", needs_encode := true,
        target := ⟨"/m", "b.mp3"⟩, temp_path := ⟨"/m", ".~b.w.tmp"⟩,
        delete_mode := .trash, collision := .overwrite }
      (.error .proc)).kind = ArtKind.none :=
  ⟨rfl, C3_probe_degrades_extract_propagates.1 _ _ .proc rfl⟩

/-! ## C5 — `atomic_commit` and the collision policies -/

/-- Characterisation of the sequential probe loop of `_versioned_name`:
when the scan starting at `i` returns a candidate, that candidate does
not exist, it is the decorated name for some `k ≥ i`, and every
decorated name strictly between `i` and `k` exists (so the result is the
*first* free name). -/
theorem versionScan_spec (fs : FS) (p : PyPath) :
    ∀ (fuel i : Nat) (cand : PyPath),
      versionScan fs p fuel i = Option.some cand →
      fs.hasFile cand = false ∧
      ∃ k, i ≤ k ∧ cand = decoratedName p k ∧
        ∀ j, i ≤ j → j < k → fs.hasFile (decoratedName p j) = true
  | 0, i, cand => by intro h; cases h
  | fuel + 1, i, cand => by
    intro h
    unfold versionScan at h
    by_cases hex : fs.hasFile (decoratedName p i) = true
    · rw [if_pos hex] at h
      obtain ⟨hfree, k, hik, hcand, hall⟩ := versionScan_spec fs p fuel (i + 1) cand h
      refine ⟨hfree, k, le_trans (Nat.le_succ i) hik, hcand, fun j hij hjk => ?_⟩
      by_cases hji : j = i
      · exact hji ▸ hex
      · exact hall j (Nat.lt_of_le_of_ne hij (Ne.symm hji)) hjk
    · rw [if_neg hex] at h
      cases h
      refine ⟨by simpa using hex, i, le_refl i, rfl, fun j hij hji => ?_⟩
      exact absurd (lt_of_le_of_lt hij hji) (lt_irrefl i)

/-- C5: the three collision policies of `atomic_commit`.
`skip` with an existing target returns the pre-existing target path and
the unchanged filesystem (so its bytes are untouched).  `version` with
an existing target renames the temp file onto the candidate produced by
the sequential probe: the commit is exactly the single rename
`(fs.remove temp).set cand`, the candidate did not exist before (so no
existing file is overwritten), and the candidate is the first free
decorated name `name (k).ext` with `k ≥ 2`.  `overwrite` (with an
existing target) renames the temp file onto the target itself.  The last
conjunct is the frame property of the rename: every path other than the
temp source and the rename destination is unchanged. -/
theorem C5_atomic_commit_collision_policies :
    (∀ (plan : TrackPlan) (fs : FS), plan.collision = .skip →
      fs.hasFile plan.target = true →
      atomic_commit plan fs = .ok (plan.target, fs)) ∧
    (∀ (plan : TrackPlan) (fs : FS) (cand : PyPath) (d : FileData),
      plan.collision = .version → fs.hasFile plan.target = true →
      versioned_name fs plan.target = Option.some cand →
      fs.lookup plan.temp_path = some d →
      atomic_commit plan fs = .ok (cand, (fs.remove plan.temp_path).set cand d) ∧
      fs.hasFile cand = false ∧
      ∃ k, 2 ≤ k ∧ cand = decoratedName plan.target k ∧
        ∀ j, 2 ≤ j → j < k → fs.hasFile (decoratedName plan.target j) = true) ∧
    (∀ (plan : TrackPlan) (fs : FS) (d : FileData),
      plan.collision = .overwrite → fs.hasFile plan.target = true →
      fs.lookup plan.temp_path = some d →
      atomic_commit plan fs =
        .ok (plan.target, (fs.remove plan.temp_path).set plan.target d)) ∧
    (∀ (plan : TrackPlan) (fs : FS) (cand : PyPath) (d : FileData),
      ((fs.remove plan.temp_path).set cand d).lookup cand = some d ∧
      ∀ q, q ≠ plan.temp_path → q ≠ cand →
        ((fs.remove plan.temp_path).set cand d).lookup q = fs.lookup q) := by
  refine ⟨fun plan fs hcol htgt => ?_, fun plan fs cand d hcol htgt hver htmp => ?_,
    fun plan fs d hcol htgt htmp => ?_, fun plan fs cand d => ?_⟩
  · unfold atomic_commit
    rw [if_pos htgt, hcol]
  · obtain ⟨hfree, k, hk2, hck, hall⟩ :=
      versionScan_spec fs plan.target (fs.files.length + 1) 2 cand
        (by simpa [versioned_name] using hver)
    refine ⟨?_, hfree, k, hk2, hck, hall⟩
    unfold atomic_commit
    rw [if_pos htgt, hcol]
    dsimp only
    rw [hver]
    dsimp only
    unfold os_replace
    rw [htmp]
  · unfold atomic_commit
    rw [if_pos htgt, hcol]
    dsimp only
    unfold os_replace
    rw [htmp]
  · exact ⟨FS.lookup_set_self _ _ _, fun q hqt hqc => by
      rw [FS.lookup_set_ne _ _ _ _ hqc, FS.lookup_remove_ne _ _ _ hqt]⟩

/-- C5, witness: concrete commits under each policy.  `skip` returns the
existing target unchanged; `version` moves the temp file to `a (2).mp3`
(the first probe, which is free here); `overwrite` moves the temp file
onto `a.mp3` itself. -/
theorem C5_witness :
    (atomic_commit
      { src := ⟨"/m", "a.flac"⟩, src_codec := "flac", needs_encode := true,
        target := ⟨"/m", "a.mp3"⟩, temp_path := ⟨"/m", ".~a.u.tmp"⟩,
        delete_mode := .trash, collision := .skip }
      ⟨[(⟨"/m", "a.mp3"⟩, ⟨7, []⟩), (⟨"/m", ".~a.u.tmp"⟩, ⟨8, []⟩)]⟩ =
      .ok (⟨"/m", "a.mp3"⟩,
        ⟨[(⟨"/m", "a.mp3"⟩, ⟨7, []⟩), (⟨"/m", ".~a.u.tmp"⟩, ⟨8, []⟩)]⟩)) ∧
    (atomic_commit
      { src := ⟨"/m", "a.flac"⟩, src_codec := "flac", needs_encode := true,
        target := ⟨"/m", "a.mp3"⟩, temp_path := ⟨"/m", ".~a.u.tmp"⟩,
        delete_mode := .trash, collision := .version }
      ⟨[(⟨"/m", "a.mp3"⟩, ⟨7, []⟩), (⟨"/m", ".~a.u.tmp"⟩, ⟨8, []⟩)]⟩ =
      .ok (⟨"/m", "a (2).mp3"⟩,
        (FS.remove ⟨[(⟨"/m", "a.mp3"⟩, ⟨7, []⟩), (⟨"/m", ".~a.u.tmp"⟩, ⟨8, []⟩)]⟩
            ⟨"/m", ".~a.u.tmp"⟩).set ⟨"/m", "a (2).mp3"⟩ ⟨8, []⟩) ∧
      FS.hasFile ⟨[(⟨"/m", "a.mp3"⟩, ⟨7, []⟩), (⟨"/m", ".~a.u.tmp"⟩, ⟨8, []⟩)]⟩
        ⟨"/m", "a (2).mp3"⟩ = false ∧
      ∃ k, 2 ≤ k ∧ (⟨"/m", "a (2).mp3"⟩ : PyPath) = decoratedName ⟨"/m", "a.mp3"⟩ k ∧
        ∀ j, 2 ≤ j → j < k →
          FS.hasFile ⟨[(⟨"/m", "a.mp3"⟩, ⟨7, []⟩), (⟨"/m", ".~a.u.tmp"⟩, ⟨8, []⟩)]⟩
            (decoratedName ⟨"/m", "a.mp3"⟩ j) = true) ∧
    (atomic_commit
      { src := ⟨"/m", "a.flac"⟩, src_codec := "flac", needs_encode := true,
        target := ⟨"/m", "a.mp3"⟩, temp_path := ⟨"/m", ".~a.u.tmp"⟩,
        delete_mode := .trash, collision := .overwrite }
      ⟨[(⟨"/m", "a.mp3"⟩, ⟨7, []⟩), (⟨"/m", ".~a.u.tmp"⟩, ⟨8, []⟩)]⟩ =
      .ok (⟨"/m", "a.mp3"⟩,
        (FS.remove ⟨[(⟨"/m", "a.mp3"⟩, ⟨7, []⟩), (⟨"/m", ".~a.u.tmp"⟩, ⟨8, []⟩)]⟩
            ⟨"/m", ".~a.u.tmp"⟩).set ⟨"/m", "a.mp3"⟩ ⟨8, []⟩)) :=
  ⟨C5_atomic_commit_collision_policies.1 _ _ rfl rfl,
   C5_atomic_commit_collision_policies.2.1 _ _ _ _ rfl rfl (by decide) rfl,
   C5_atomic_commit_collision_policies.2.2.1 _ _ _ rfl rfl rfl⟩

/-! ## Order lemmas for the planner's sort relations -/

theorem strLtb_nil_right : ∀ as, strLtb as [] = false
  | [] => rfl
  | _ :: _ => rfl

theorem strLtb_asymm : ∀ as bs, strLtb as bs = true → strLtb bs as = false
  | [], [] => fun h => by cases h
  | [], _ :: _ => fun _ => rfl
  | _ :: _, [] => fun h => by cases h
  | a :: as, b :: bs => fun h => by
    unfold strLtb at h ⊢
    by_cases hab : a < b
    · rw [if_neg (asymm hab), if_pos hab]
    · rw [if_neg hab] at h
      by_cases hba : b < a
      · rw [if_pos hba] at h; cases h
      · rw [if_neg hba] at h
        rw [if_neg hba, if_neg hab]
        exact strLtb_asymm as bs h

theorem strLtb_trichotomy : ∀ as bs,
    strLtb as bs = true ∨ as = bs ∨ strLtb bs as = true
  | [], [] => .inr (.inl rfl)
  | [], _ :: _ => .inl rfl
  | _ :: _, [] => .inr (.inr rfl)
  | a :: as, b :: bs => by
    rcases lt_trichotomy a b with h | h | h
    · left; unfold strLtb; rw [if_pos h]
    · subst h
      rcases strLtb_trichotomy as bs with h1 | h1 | h1
      · left; unfold strLtb
        rw [if_neg (lt_irrefl a), if_neg (lt_irrefl a)]; exact h1
      · right; left; rw [h1]
      · right; right; unfold strLtb
        rw [if_neg (lt_irrefl a), if_neg (lt_irrefl a)]; exact h1
    · right; right; unfold strLtb; rw [if_pos h]

theorem strLtb_trans : ∀ as bs cs,
    strLtb as bs = true → strLtb bs cs = true → strLtb as cs = true
  | as, bs, [] => fun _ h2 => by rw [strLtb_nil_right bs] at h2; cases h2
  | [], _, _ :: _ => fun _ _ => rfl
  | a :: as, [], c :: cs => fun h1 _ => by
    rw [strLtb_nil_right (a :: as)] at h1; cases h1
  | a :: as, b :: bs, c :: cs => fun h1 h2 => by
    unfold strLtb at h1 h2 ⊢
    by_cases hab : a < b
    · by_cases hbc : b < c
      · rw [if_pos (lt_trans hab hbc)]
      · rw [if_neg hbc] at h2
        by_cases hcb : c < b
        · rw [if_pos hcb] at h2; cases h2
        · have hbceq : b = c := le_antisymm (not_lt.mp hcb) (not_lt.mp hbc)
          rw [if_pos (hbceq ▸ hab)]
    · rw [if_neg hab] at h1
      by_cases hba : b < a
      · rw [if_pos hba] at h1; cases h1
      · rw [if_neg hba] at h1
        have habeq : a = b := le_antisymm (not_lt.mp hba) (not_lt.mp hab)
        subst habeq
        by_cases hac : a < c
        · rw [if_pos hac]
        · rw [if_neg hac] at h2 ⊢
          by_cases hca : c < a
          · rw [if_pos hca] at h2; cases h2
          · rw [if_neg hca] at h2 ⊢
            exact strLtb_trans as bs cs h1 h2

theorem strLtb_eq_of_not (as bs : List Char) (h1 : strLtb as bs = false)
    (h2 : strLtb bs as = false) : as = bs := by
  rcases strLtb_trichotomy as bs with h | h | h
  · rw [h] at h1; cases h1
  · exact h
  · rw [h] at h2; cases h2

instance : IsTotal PyPath pathStrLE where
  total p q := by
    unfold pathStrLE
    by_cases h : strLtb q.str.data p.str.data = true
    · exact .inr (strLtb_asymm _ _ h)
    · exact .inl (Bool.eq_false_iff.mpr h)

instance : IsTrans PyPath pathStrLE where
  trans p q r h1 h2 := by
    unfold pathStrLE at h1 h2 ⊢
    by_cases h : strLtb r.str.data p.str.data = true
    · rcases strLtb_trichotomy r.str.data q.str.data with hx | hx | hx
      · rw [hx] at h2; cases h2
      · rw [← hx] at h1; rw [h] at h1; cases h1
      · have := strLtb_trans _ _ _ hx h
        rw [this] at h1; cases h1
    · exact Bool.eq_false_iff.mpr h

theorem strLtb_irrefl : ∀ as, strLtb as as = false
  | [] => rfl
  | a :: as => by
    unfold strLtb
    rw [if_neg (lt_irrefl a), if_neg (lt_irrefl a)]
    exact strLtb_irrefl as

theorem strData_inj {s t : String} (h : s.data = t.data) : s = t := by
  cases s; cases t; cases h; rfl

theorem tupLt_asymm (a b : String × String) (h : tupLt a b = true) :
    tupLt b a = false := by
  unfold tupLt at h ⊢
  rcases Bool.or_eq_true_iff.mp h with h1 | h1
  · have hba : strLtb b.1.data a.1.data = false := strLtb_asymm _ _ h1
    have hne : (decide (b.1 = a.1)) = false := by
      rw [decide_eq_false_iff_not]
      intro he
      rw [he] at h1
      rw [strLtb_irrefl] at h1
      cases h1
    rw [hba, hne]
    rfl
  · rcases Bool.and_eq_true_iff.mp h1 with ⟨he, h2⟩
    have he' : a.1 = b.1 := of_decide_eq_true he
    have hba : strLtb b.1.data a.1.data = false := by
      rw [← he', strLtb_irrefl]
    have hs : strLtb b.2.data a.2.data = false := strLtb_asymm _ _ h2
    rw [hba, hs]
    simp

theorem tupLt_cotrans (a c : String × String) (h : tupLt a c = true)
    (b : String × String) : tupLt a b = true ∨ tupLt b c = true := by
  unfold tupLt at h ⊢
  rcases Bool.or_eq_true_iff.mp h with h1 | h1
  · rcases strLtb_trichotomy a.1.data b.1.data with hx | hx | hx
    · exact .inl (Bool.or_eq_true_iff.mpr (.inl hx))
    · refine .inr (Bool.or_eq_true_iff.mpr (.inl ?_))
      rw [← hx]; exact h1
    · exact .inr (Bool.or_eq_true_iff.mpr (.inl (strLtb_trans _ _ _ hx h1)))
  · rcases Bool.and_eq_true_iff.mp h1 with ⟨he, h2⟩
    have he' : a.1 = c.1 := of_decide_eq_true he
    rcases strLtb_trichotomy a.1.data b.1.data with hx | hx | hx
    · exact .inl (Bool.or_eq_true_iff.mpr (.inl hx))
    · have hab : a.1 = b.1 := strData_inj hx
      rcases strLtb_trichotomy a.2.data b.2.data with hy | hy | hy
      · exact .inl (Bool.or_eq_true_iff.mpr
          (.inr (Bool.and_eq_true_iff.mpr ⟨decide_eq_true hab, hy⟩)))
      · refine .inr (Bool.or_eq_true_iff.mpr
          (.inr (Bool.and_eq_true_iff.mpr
            ⟨decide_eq_true (hab ▸ he'), ?_⟩)))
        rw [← hy]; exact h2
      · exact .inr (Bool.or_eq_true_iff.mpr
          (.inr (Bool.and_eq_true_iff.mpr
            ⟨decide_eq_true (hab ▸ he'), strLtb_trans _ _ _ hy h2⟩)))
    · refine .inr (Bool.or_eq_true_iff.mpr (.inl ?_))
      rw [← he']; exact hx

instance : IsTotal TrackPlan planLE where
  total p q := by
    unfold planLE
    by_cases h : tupLt (planKey q) (planKey p) = true
    · exact .inr (tupLt_asymm _ _ h)
    · exact .inl (Bool.eq_false_iff.mpr h)

instance : IsTrans TrackPlan planLE where
  trans p q r h1 h2 := by
    unfold planLE at h1 h2 ⊢
    by_cases h : tupLt (planKey r) (planKey p) = true
    · rcases tupLt_cotrans _ _ h (planKey q) with hx | hx
      · rw [hx] at h2; cases h2
      · rw [hx] at h1; cases h1
    · exact Bool.eq_false_iff.mpr h

/-! ## C4, C6 — planner determinism, ordering and input collapsing -/

theorem map_stripTemp_orderedInsert (a : TrackPlan) (l : List TrackPlan) :
    (List.orderedInsert planLE a l).map stripTemp =
      List.orderedInsert planLE (stripTemp a) (l.map stripTemp) := by
  induction l with
  | nil => rfl
  | cons b l ih =>
    simp only [List.map_cons, List.orderedInsert]
    by_cases h : planLE a b
    · rw [if_pos h, if_pos (show planLE (stripTemp a) (stripTemp b) from h),
        List.map_cons, List.map_cons]
    · rw [if_neg h, if_neg (show ¬planLE (stripTemp a) (stripTemp b) from h),
        List.map_cons, ih]

theorem map_stripTemp_insertionSort (l : List TrackPlan) :
    (List.insertionSort planLE l).map stripTemp =
      List.insertionSort planLE (l.map stripTemp) := by
  induction l with
  | nil => rfl
  | cons a l ih =>
    rw [List.insertionSort, List.map_cons, List.insertionSort,
      map_stripTemp_orderedInsert, ih]

/-- C4, amended, part of the claim that holds: `build_run_plan` is
deterministic over an unchanged tree *up to the freshly generated
temporary paths* (erasing `temp_path`, two invocations with different
uuid draws agree exactly), and its output is sorted by the key
`(str(parent), name)` under the lexicographic tuple order. -/
theorem C4_planner_deterministic_and_sorted :
    (∀ (t : FSTree) (inputs : List PyPath) (s : PlannerSettings)
      (u1 u2 : Nat → String),
      (build_run_plan t inputs s u1).map (List.map stripTemp) =
        (build_run_plan t inputs s u2).map (List.map stripTemp)) ∧
    (∀ (t : FSTree) (inputs : List PyPath) (s : PlannerSettings)
      (u : Nat → String) (plans : List TrackPlan),
      build_run_plan t inputs s u = .ok plans → List.Sorted planLE plans) := by
  constructor
  · intro t inputs s u1 u2
    unfold build_run_plan
    by_cases h : _iter_audio_files t inputs = []
    · rw [if_pos h, if_pos h]
    · rw [if_neg h, if_neg h]
      show Except.ok (List.map stripTemp _) = Except.ok (List.map stripTemp _)
      rw [map_stripTemp_insertionSort, map_stripTemp_insertionSort,
        List.map_map, List.map_map]
      rfl
  · intro t inputs s u plans h
    unfold build_run_plan at h
    by_cases hnil : _iter_audio_files t inputs = []
    · rw [if_pos hnil] at h; cases h
    · rw [if_neg hnil] at h
      cases h
      exact List.sorted_insertionSort planLE _

/-- A one-directory, two-file filesystem tree used by the planner
counterexamples and witnesses: every path resolves to itself, the two
audio files exist, nothing is a directory. -/
def treeTwoFiles : FSTree where
  resolve := id
  is_file := fun p => p = ⟨"/m", "a.flac"⟩ ∨ p = ⟨"/m", "b.flac"⟩
  is_dir := fun _ => false
  walk := fun _ => []

/-- C4, counterexample.  The claim says two invocations of
`build_run_plan` on an unchanged tree produce *the same* ordered plan
list.  Each invocation draws fresh `uuid4` values for the per-plan
temporary paths, so two runs differ in `temp_path`: with uuid draws
`"aaaa"` and `"bbbb"` the plan lists are not equal. -/
theorem C4_counterexample :
    (build_run_plan treeTwoFiles [⟨"/m", "a.flac"⟩]
        ⟨.trash, .overwrite⟩ (fun _ => "aaaa")).toOption ≠
      (build_run_plan treeTwoFiles [⟨"/m", "a.flac"⟩]
        ⟨.trash, .overwrite⟩ (fun _ => "bbbb")).toOption := by
  decide

/-- C6, amended: each *input* path is resolved to canonical absolute
form before classification, so the plans depend only on the resolved
path — two spellings of the same file (e.g. a symlink and its target)
yield identical plan lists.  (Deduplication, however, does not happen:
see the counterexample.) -/
theorem C6_resolution_before_classification (t : FSTree) (p q : PyPath)
    (s : PlannerSettings) (u : Nat → String)
    (h : t.resolve p = t.resolve q) :
    build_run_plan t [p] s u = build_run_plan t [q] s u := by
  have hi : iterOneInput t p = iterOneInput t q := by
    unfold iterOneInput
    rw [h]
  unfold build_run_plan _iter_audio_files
  rw [show [p].map (iterOneInput t) = [q].map (iterOneInput t) from by
    simp only [List.map_cons, List.map_nil]; rw [hi]]

/-- C6, witness: a tree in which the spelling `link.flac` resolves to
`a.flac` produces the same single plan for either spelling. -/
theorem C6_witness :
    build_run_plan
        { resolve := fun _ => ⟨"/m", "a.flac"⟩,
          is_file := fun p => p = ⟨"/m", "a.flac"⟩,
          is_dir := fun _ => false, walk := fun _ => [] }
        [⟨"/m", "link.flac"⟩] ⟨.trash, .overwrite⟩ (fun _ => "cccc") =
      build_run_plan
        { resolve := fun _ => ⟨"/m", "a.flac"⟩,
          is_file := fun p => p = ⟨"/m", "a.flac"⟩,
          is_dir := fun _ => false, walk := fun _ => [] }
        [⟨"/m", "a.flac"⟩] ⟨.trash, .overwrite⟩ (fun _ => "cccc") :=
  C6_resolution_before_classification _ _ _ _ _ rfl

/-- C6, counterexample.  The claim says duplicate or symlinked
references to the same file yield *at most one* `TrackPlan` for that
file.  `_iter_audio_files` resolves each input but never deduplicates
the collected list, so passing the same file twice yields two plans with
the same source path. -/
theorem C6_counterexample :
    ((build_run_plan treeTwoFiles [⟨"/m", "a.flac"⟩, ⟨"/m", "a.flac"⟩]
        ⟨.trash, .overwrite⟩ (fun _ => "dddd")).map
        (List.map TrackPlan.src)).toOption =
      some [⟨"/m", "a.flac"⟩, ⟨"/m", "a.flac"⟩] := by
  decide

/-- C4, witness: a concrete successful plan build is sorted. -/
theorem C4_witness :
    List.Sorted planLE
      [mkPlan ⟨.trash, .overwrite⟩ "eeee" ⟨"/m", "a.flac"⟩] :=
  C4_planner_deterministic_and_sorted.2 treeTwoFiles [⟨"/m", "a.flac"⟩]
    ⟨.trash, .overwrite⟩ (fun _ => "eeee") _ rfl

/-! ## C1, C10 — pipeline failure atomicity and the no-art gate -/

theorem audio_stage_ok_shape (plan : TrackPlan) (pp : PipeParams)
    (fs fs1 : FS) (h : audio_stage plan pp fs = .ok fs1) :
    ∃ d, fs1 = fs.set plan.temp_path d := by
  unfold audio_stage at h
  cases he : plan.needs_encode with
  | true =>
    rw [he] at h
    simp only [if_true] at h
    cases hr : pp.encodeResult with
    | error l => rw [hr] at h; cases h
    | ok d => rw [hr] at h; cases h; exact ⟨d, rfl⟩
  | false =>
    rw [he] at h
    simp only [Bool.false_eq_true, if_false] at h
    cases hr : fs.lookup plan.src with
    | none => rw [hr] at h; cases h
    | some d => rw [hr] at h; cases h; exact ⟨d, rfl⟩

/-- C1: whenever the pipeline for a track fails at a stage before the
commit (audio production, tagging, or any of the three validation
checks), the file at the plan's target path is untouched: its contents
after the failure (and after the `except`-block cleanup of the temp
output and temp art) equal its contents before the run.  The commit is
the only operation that writes the target, and it runs only after all
three validation checks succeed. -/
theorem C1_failure_before_commit_preserves_target
    (plan : TrackPlan) (png500 : Option Apic) (artPaths : List PyPath)
    (pp : PipeParams) (st : PipelineSettings) (fs : FS) (s : Stage) (fs' : FS)
    (hTemp : plan.target ≠ plan.temp_path)
    (hArt : plan.target ∉ artPaths)
    (hRun : process_one plan png500 artPaths pp st fs = .failed s fs')
    (hPre : s.beforeCommit = true) :
    fs'.lookup plan.target = fs.lookup plan.target := by
  unfold process_one at hRun
  cases ha : audio_stage plan pp fs with
  | error leftover =>
    rw [ha] at hRun
    injection hRun with h1 h2
    subst h1
    subst h2
    cases leftover with
    | none => rw [failCleanup_lookup_ne _ _ _ _ hTemp hArt]
    | some d =>
      rw [failCleanup_lookup_ne _ _ _ _ hTemp hArt,
        FS.lookup_set_ne _ _ _ _ hTemp]
  | ok fs1 =>
    rw [ha] at hRun
    obtain ⟨d0, rfl⟩ := audio_stage_ok_shape plan pp fs fs1 ha
    dsimp only at hRun
    cases hl : (fs.set plan.temp_path d0).lookup plan.temp_path with
    | none =>
      rw [hl] at hRun
      dsimp only at hRun
      injection hRun with h1 h2
      subst h1
      subst h2
      rw [failCleanup_lookup_ne _ _ _ _ hTemp hArt,
        FS.lookup_set_ne _ _ _ _ hTemp]
    | some td =>
      rw [hl] at hRun
      dsimp only at hRun
      cases hw : write_apic td.apics png500 with
      | error e =>
        rw [hw] at hRun
        dsimp only at hRun
        injection hRun with h1 h2
        subst h1
        subst h2
        rw [failCleanup_lookup_ne _ _ _ _ hTemp hArt,
          FS.lookup_set_ne _ _ _ _ hTemp]
      | ok newApics =>
        rw [hw] at hRun
        dsimp only at hRun
        cases hv : validation_stage plan pp
            ((((fs.set plan.temp_path d0).set plan.temp_path
              { td with apics := newApics }).lookup plan.temp_path).getD ⟨0, []⟩) with
        | error e =>
          rw [hv] at hRun
          dsimp only at hRun
          injection hRun with h1 h2
          subst h1
          subst h2
          rw [failCleanup_lookup_ne _ _ _ _ hTemp hArt,
            FS.lookup_set_ne _ _ _ _ hTemp, FS.lookup_set_ne _ _ _ _ hTemp]
        | ok u =>
          rw [hv] at hRun
          dsimp only at hRun
          cases hc : atomic_commit plan
              ((fs.set plan.temp_path d0).set plan.temp_path
                { td with apics := newApics }) with
          | error e =>
            rw [hc] at hRun
            dsimp only at hRun
            injection hRun with h1 h2
            subst h1
            cases hPre
          | ok res =>
            rw [hc] at hRun
            dsimp only at hRun
            by_cases hdel : (asciiLower plan.src_codec ≠ "mp3") ∧
                st.replace_in_place ∧
                pp.resolvePath res.1 ≠ pp.resolvePath plan.src
            · rw [if_pos hdel] at hRun
              cases hds : delete_source plan res.2 with
              | error e =>
                rw [hds] at hRun
                dsimp only at hRun
                injection hRun with h1 h2
                subst h1
                cases hPre
              | ok fs4 =>
                rw [hds] at hRun
                dsimp only at hRun
                cases hRun
            · rw [if_neg hdel] at hRun
              cases hRun

/-- C1, witness: a concrete encode failure (the external transcoder
errors before writing anything) leaves the pre-existing target file
untouched. -/
theorem C1_witness :
    process_one
      { src := ⟨"/m", "t.flac"⟩, src_codec := "flac", needs_encode := true,
        target := ⟨"/m", "t.mp3"⟩, temp_path := ⟨"/m", ".~t.q.tmp"⟩,
        delete_mode := .trash, collision := .overwrite }
      Option.none []
      { encodeResult := .error Option.none, srcDurProbe := .json (Option.some 3),
        dstDurProbe := .json (Option.some 3), bitrateProbe := .json (Option.some 320000),
        resolvePath := fun p => p }
      ⟨true⟩ ⟨[(⟨"/m", "t.mp3"⟩, ⟨1, []⟩)]⟩ =
      .failed .audio ⟨[(⟨"/m", "t.mp3"⟩, ⟨1, []⟩)]⟩ ∧
    FS.lookup ⟨[(⟨"/m", "t.mp3"⟩, ⟨1, []⟩)]⟩ ⟨"/m", "t.mp3"⟩ =
      FS.lookup ⟨[(⟨"/m", "t.mp3"⟩, ⟨1, []⟩)]⟩ ⟨"/m", "t.mp3"⟩ :=
  ⟨rfl,
    C1_failure_before_commit_preserves_target
      { src := ⟨"/m", "t.flac"⟩, src_codec := "flac", needs_encode := true,
        target := ⟨"/m", "t.mp3"⟩, temp_path := ⟨"/m", ".~t.q.tmp"⟩,
        delete_mode := .trash, collision := .overwrite }
      Option.none []
      { encodeResult := .error Option.none, srcDurProbe := .json (Option.some 3),
        dstDurProbe := .json (Option.some 3), bitrateProbe := .json (Option.some 320000),
        resolvePath := fun p => p }
      ⟨true⟩ ⟨[(⟨"/m", "t.mp3"⟩, ⟨1, []⟩)]⟩ .audio ⟨[(⟨"/m", "t.mp3"⟩, ⟨1, []⟩)]⟩
      (by decide) (by decide) rfl rfl⟩

theorem validation_stage_apicless_errs (plan : TrackPlan) (pp : PipeParams)
    (payload : Nat) :
    ∃ e, validation_stage plan pp ⟨payload, []⟩ = .error e := by
  unfold validation_stage
  cases hd : validate_duration_close pp.srcDurProbe pp.dstDurProbe (1 / 2) with
  | error e => exact ⟨e, rfl⟩
  | ok u =>
    cases hb : validate_bitrate_if_encoded plan.needs_encode pp.bitrateProbe with
    | error e => exact ⟨e, rfl⟩
    | ok u2 => exact ⟨.value "No APIC found in output tags", rfl⟩

/-- C10: a track whose art source resolved to `kind=none` cannot reach
the commit stage.  Extraction of a no-art source yields no raw image,
normalization of no raw image yields no normalized cover, and running
the pipeline with no normalized cover ends in a pre-commit failure
(the tagging stage deletes all APIC frames and adds none, so the cover
validation check necessarily raises if the earlier stages got that far):
the outcome never reaches commit, hence is never a success. -/
theorem C10_no_art_never_reaches_commit
    (plan : TrackPlan) (art : ArtSource) (ffm ffn : Except PipeErr Unit)
    (exfn : PyPath → Bool) (artPaths : List PyPath)
    (pp : PipeParams) (st : PipelineSettings) (fs : FS)
    (hkind : art.kind = ArtKind.none) :
    extract_art_to_file plan art ffm = .ok Option.none ∧
    normalize_art_to_jpeg_500 plan exfn Option.none ffn = .ok Option.none ∧
    (process_one plan Option.none artPaths pp st fs).reachedCommit = false := by
  refine ⟨by unfold extract_art_to_file; rw [hkind], rfl, ?_⟩
  unfold process_one
  cases ha : audio_stage plan pp fs with
  | error leftover => rfl
  | ok fs1 =>
    dsimp only
    cases hl : fs1.lookup plan.temp_path with
    | none => rfl
    | some td =>
      dsimp only [write_apic]
      rw [FS.lookup_set_self]
      obtain ⟨e, he⟩ := validation_stage_apicless_errs plan pp td.payload
      rw [Option.getD_some, he]
      rfl

/-- C10, witness: a concrete plan with a `kind=none` art source never
reaches the commit. -/
theorem C10_witness :
    extract_art_to_file
      { src := ⟨"/m", "u.flac"⟩, src_codec := "flac", needs_encode := true,
        target := ⟨"/m", "u.mp3"⟩, temp_path := ⟨"/m", ".~u.r.tmp"⟩,
        delete_mode := .trash, collision := .overwrite }
      { kind := .none, detail := "no art" } (.ok ()) = .ok Option.none ∧
    normalize_art_to_jpeg_500
      { src := ⟨"/m", "u.flac"⟩, src_codec := "flac", needs_encode := true,
        target := ⟨"/m", "u.mp3"⟩, temp_path := ⟨"/m", ".~u.r.tmp"⟩,
        delete_mode := .trash, collision := .overwrite }
      (fun _ => false) Option.none (.ok ()) = .ok Option.none ∧
    (process_one
      { src := ⟨"/m", "u.flac"⟩, src_codec := "flac", needs_encode := true,
        target := ⟨"/m", "u.mp3"⟩, temp_path := ⟨"/m", ".~u.r.tmp"⟩,
        delete_mode := .trash, collision := .overwrite }
      Option.none []
      { encodeResult := .ok ⟨2, []⟩, srcDurProbe := .json (Option.some 3),
        dstDurProbe := .json (Option.some 3), bitrateProbe := .json (Option.some 320000),
        resolvePath := fun p => p }
      ⟨true⟩ ⟨[]⟩).reachedCommit = false :=
  C10_no_art_never_reaches_commit
    { src := ⟨"/m", "u.flac"⟩, src_codec := "flac", needs_encode := true,
      target := ⟨"/m", "u.mp3"⟩, temp_path := ⟨"/m", ".~u.r.tmp"⟩,
      delete_mode := .trash, collision := .overwrite }
    { kind := .none, detail := "no art" } (.ok ()) (.ok ())
    (fun _ => false) []
    { encodeResult := .ok ⟨2, []⟩, srcDurProbe := .json (Option.some 3),
      dstDurProbe := .json (Option.some 3), bitrateProbe := .json (Option.some 320000),
      resolvePath := fun p => p }
    ⟨true⟩ ⟨[]⟩ rfl

/-! ## C9 — reduced tag fields written only when present

Dictionary lemmas for the reduced tag map and the written frame map,
then origin-tracking through `read_source_tags` and
`write_id3_v23_with_apic`'s text frames. -/

theorem dhas_nil (K : String) : dhas [] K = false := rfl

theorem dhas_cons (e : String × String) (m : List (String × String)) (K : String) :
    dhas (e :: m) K = (decide (e.1 = K) || dhas m K) := by
  simp [dhas]

theorem dhas_dset_eq : ∀ (m : List (String × String)) (k v K : String),
    dhas (dset m k v) K = (decide (K = k) || dhas m K)
  | [], k, v, K => by
    have h0 : dset [] k v = [(k, v)] := rfl
    rw [h0, dhas_cons, dhas_nil, Bool.or_false, Bool.or_false]
    exact decide_eq_decide.mpr eq_comm
  | e :: m, k, v, K => by
    unfold dset
    by_cases he : e.1 = k
    · rw [if_pos he, dhas_cons, dhas_cons, he]
      by_cases hK : K = k
      · subst hK
        simp
      · have h1 : (decide (k = K)) = false := by
          simpa using fun hh : k = K => hK hh.symm
        have h2 : (decide (K = k)) = false := by simpa using hK
        rw [h1, h2]
        simp
    · rw [if_neg he, dhas_cons, dhas_cons, dhas_dset_eq m k v K]
      cases hx : decide (e.1 = K) <;> cases hy : decide (K = k) <;> simp

theorem dhas_dset_imp {m : List (String × String)} {k v K : String}
    (h : dhas (dset m k v) K = true) : K = k ∨ dhas m K = true := by
  rw [dhas_dset_eq] at h
  rcases Bool.or_eq_true_iff.mp h with h1 | h1
  · exact .inl (of_decide_eq_true h1)
  · exact .inr h1

theorem dget_dset_eq : ∀ (m : List (String × String)) (k v K : String),
    dget (dset m k v) K = if K = k then some v else dget m K
  | [], k, v, K => by
    have h0 : dset [] k v = [(k, v)] := rfl
    rw [h0]
    by_cases h : K = k
    · subst h
      unfold dget
      rw [List.find?_cons_of_pos _ (by simp)]
      simp
    · unfold dget
      rw [List.find?_cons_of_neg _ (by simpa using fun hh : k = K => h hh.symm),
        if_neg h]
  | e :: m, k, v, K => by
    unfold dset
    by_cases he : e.1 = k
    · rw [if_pos he]
      by_cases hK : K = k
      · subst hK
        unfold dget
        rw [List.find?_cons_of_pos _ (by simp), if_pos rfl]
        rfl
      · rw [if_neg hK]
        have h2 : ¬(e.1 = K) := fun hh => hK (hh ▸ he)
        unfold dget
        rw [List.find?_cons_of_neg _ (by simpa using fun hh : k = K => hK hh.symm),
          List.find?_cons_of_neg _ (by simpa using h2)]
    · rw [if_neg he]
      by_cases heK : e.1 = K
      · have hKk : ¬(K = k) := fun hh => he (heK.trans hh)
        rw [if_neg hKk]
        unfold dget
        rw [List.find?_cons_of_pos _ (by simpa using heK),
          List.find?_cons_of_pos _ (by simpa using heK)]
      · unfold dget
        rw [List.find?_cons_of_neg _ (by simpa using heK),
          List.find?_cons_of_neg _ (by simpa using heK)]
        exact dget_dset_eq m k v K

theorem dhas_eq_isSome : ∀ (m : List (String × String)) (K : String),
    dhas m K = (dget m K).isSome
  | [], K => rfl
  | e :: m, K => by
    by_cases h : e.1 = K
    · show (e :: m).any _ = _
      rw [List.any_cons]
      unfold dget
      rw [List.find?_cons_of_pos _ (by simpa using h)]
      simp [h]
    · show (e :: m).any _ = _
      rw [List.any_cons]
      unfold dget
      rw [List.find?_cons_of_neg _ (by simpa using h)]
      rw [show (decide (e.1 = K)) = false by simpa using h]
      simp only [Bool.false_or]
      exact dhas_eq_isSome m K

theorem dhas_set_text_eq (f : List (String × String)) (Kf K : String) :
    ∀ v : Option String,
      dhas (set_text f Kf v) K =
        ((decide (K = Kf) && decide (v.getD "" ≠ "")) || dhas f K)
  | Option.none => by
    have h0 : set_text f Kf Option.none = f := rfl
    rw [h0]
    simp
  | Option.some s => by
    have h0 : set_text f Kf (Option.some s) = if s ≠ "" then dset f Kf s else f := rfl
    rw [h0]
    by_cases hs : s ≠ ""
    · rw [if_pos hs, dhas_dset_eq]
      simp [hs]
    · rw [if_neg hs]
      push_neg at hs
      simp [hs]

theorem dhas_ite_eq (c : Prop) [Decidable c] (a b : List (String × String))
    (K : String) :
    dhas (if c then a else b) K = if c then dhas a K else dhas b K :=
  apply_ite (dhas · K) c a b

theorem dhas_ite_imp {c : Prop} [Decidable c]
    {a b : List (String × String)} {K : String}
    (h : dhas (if c then a else b) K = true) :
    dhas a K = true ∨ dhas b K = true := by
  by_cases hc : c
  · rw [if_pos hc] at h; exact .inl h
  · rw [if_neg hc] at h; exact .inr h

theorem dhas_set_text_imp {f : List (String × String)} {Kf K : String}
    {v : Option String} (h : dhas (set_text f Kf v) K = true) :
    (K = Kf ∧ v.getD "" ≠ "") ∨ dhas f K = true := by
  rw [dhas_set_text_eq] at h
  rcases Bool.or_eq_true_iff.mp h with h1 | h1
  · rcases Bool.and_eq_true_iff.mp h1 with ⟨ha, hb⟩
    exact .inl ⟨of_decide_eq_true ha, of_decide_eq_true hb⟩
  · exact .inr h1

/-- Origin of a key in the copied text tags: either it was already in
the accumulator, or it is one of the copied keys and the source has a
value for it. -/
theorem copy_text_tags_origin (m : SrcTags) :
    ∀ (ks : List String) (t : List (String × String)) (K : String),
      dhas (copy_text_tags m ks t) K = true →
      dhas t K = true ∨ (K ∈ ks ∧ (sget m K).isSome = true)
  | [], t, K => fun h => .inl h
  | k :: ks, t, K => fun h => by
    have h' : dhas (copy_text_tags m ks
        (match sget m k with
         | Option.some v => if v.truthy then dset t k v.firstStr else t
         | Option.none => t)) K = true := h
    rcases copy_text_tags_origin m ks _ K h' with h1 | h1
    · rcases hv : sget m k with _ | v
      · rw [hv] at h1
        exact .inl h1
      · rw [hv] at h1
        dsimp only at h1
        by_cases htr : v.truthy = true
        · rw [if_pos htr] at h1
          rcases dhas_dset_imp h1 with h2 | h2
          · subst h2
            exact .inr ⟨List.mem_cons_self _ _, by rw [hv]; rfl⟩
          · exact .inl h2
        · rw [if_neg htr] at h1
          exact .inl h1
    · exact .inr ⟨List.mem_cons_of_mem _ h1.1, h1.2⟩

/-- Origin of a key after the track/disc number handling. -/
theorem numberPair_origin (t : List (String × String)) (nk tk : String)
    (v : Option MVal) (K : String)
    (h : dhas (numberPair t nk tk v) K = true) :
    dhas t K = true ∨ ((K = nk ∨ K = tk) ∧ v.isSome = true) := by
  cases v with
  | none => exact .inl h
  | some mv =>
    cases mv with
    | prim p =>
      have h' : dhas (dset t nk p.toStr) K = true := h
      rcases dhas_dset_imp h' with h1 | h1
      · exact .inr ⟨.inl h1, rfl⟩
      · exact .inl h1
    | seq l =>
      cases l with
      | nil =>
        have h' : dhas (dset t nk "[]") K = true := h
        rcases dhas_dset_imp h' with h1 | h1
        · exact .inr ⟨.inl h1, rfl⟩
        · exact .inl h1
      | cons p rest =>
        cases rest with
        | nil =>
          have h' : dhas (dset t nk
              (if p ≠ Prim.null ∧ p ≠ Prim.num 0 then p.toStr else "")) K = true := h
          rcases dhas_dset_imp h' with h1 | h1
          · exact .inr ⟨.inl h1, rfl⟩
          · exact .inl h1
        | cons q rest2 =>
          have h' : dhas (if q.truthy = true
              then dset (dset t nk
                (if p ≠ Prim.null ∧ p ≠ Prim.num 0 then p.toStr else "")) tk q.toStr
              else dset t nk
                (if p ≠ Prim.null ∧ p ≠ Prim.num 0 then p.toStr else "")) K = true := h
          rcases dhas_ite_imp h' with h1 | h1
          · rcases dhas_dset_imp h1 with h2 | h2
            · exact .inr ⟨.inr h2, rfl⟩
            · rcases dhas_dset_imp h2 with h3 | h3
              · exact .inr ⟨.inl h3, rfl⟩
              · exact .inl h3
          · rcases dhas_dset_imp h1 with h2 | h2
            · exact .inr ⟨.inl h2, rfl⟩
            · exact .inl h2

/-- Origin of a key after a `totaltracks`/`totaldiscs` fallback. -/
theorem totalFallback_origin (t : List (String × String)) (tk : String)
    (v : Option MVal) (K : String)
    (h : dhas (totalFallback t tk v) K = true) :
    dhas t K = true ∨ (K = tk ∧ v.isSome = true) := by
  cases v with
  | none => exact .inl h
  | some mv =>
    have h' : dhas (if ¬dhas t tk = true then dset t tk mv.firstStr else t) K = true := h
    rcases dhas_ite_imp h' with h1 | h1
    · rcases dhas_dset_imp h1 with h2 | h2
      · exact .inr ⟨h2, rfl⟩
      · exact .inl h2
    · exact .inl h1

/-- Origin of every key in the reduced tag map produced by
`read_source_tags` from a tagged source: the title (which may be the
stem fallback), a copied text key present in the source, or a
track/disc number pulled from one of its source spellings. -/
theorem read_tags_origin (stem : String) (m : SrcTags) (K : String)
    (h : dhas (read_source_tags stem (Option.some m)) K = true) :
    K = "title" ∨
    (K ∈ ["artist", "album", "albumartist", "date", "genre"] ∧
      (sget m K).isSome = true) ∨
    ((K = "track" ∨ K = "tracktotal") ∧
      (pull_any m ["tracknumber", "track", "trkn"]).isSome = true) ∨
    (K = "tracktotal" ∧ (pull_any m ["totaltracks", "tracktotal"]).isSome = true) ∨
    ((K = "disc" ∨ K = "disctotal") ∧
      (pull_any m ["discnumber", "disc", "disk"]).isSome = true) ∨
    (K = "disctotal" ∧ (pull_any m ["totaldiscs", "disctotal"]).isSome = true) := by
  by_cases hT : K = "title"
  · exact .inl hT
  unfold read_source_tags at h
  dsimp only at h
  have h5 : dhas (reduced_tags m) K = true := by
    rcases dhas_ite_imp h with h1 | h1
    · rcases dhas_dset_imp h1 with h2 | h2
      · exact absurd h2 hT
      · exact h2
    · exact h1
  unfold reduced_tags at h5
  dsimp only at h5
  rcases totalFallback_origin _ _ _ _ h5 with h4 | h4
  swap
  · exact .inr (.inr (.inr (.inr (.inr h4))))
  rcases numberPair_origin _ _ _ _ _ h4 with h3 | h3
  swap
  · exact .inr (.inr (.inr (.inr (.inl h3))))
  rcases totalFallback_origin _ _ _ _ h3 with h2 | h2
  swap
  · exact .inr (.inr (.inr (.inl h2)))
  rcases numberPair_origin _ _ _ _ _ h2 with h1 | h1
  swap
  · exact .inr (.inr (.inl h1))
  rcases copy_text_tags_origin m _ _ K h1 with h0 | h0
  · rw [dhas_nil] at h0
    cases h0
  · refine .inr (.inl ⟨?_, h0.2⟩)
    have hm := h0.1
    simp only [List.mem_cons, List.not_mem_nil, or_false] at hm ⊢
    rcases hm with hk | hk | hk | hk | hk | hk
    · exact .inl hk
    · exact .inr (.inl hk)
    · exact .inr (.inr (.inl hk))
    · exact absurd hk hT
    · exact .inr (.inr (.inr (.inl hk)))
    · exact .inr (.inr (.inr (.inr hk)))

theorem dhas_numfrm_imp {c1 c2 : Prop} [Decidable c1] [Decidable c2]
    {f : List (String × String)} {Kf v1 v2 K : String}
    (h : dhas (if c1 then dset f Kf v1 else if c2 then dset f Kf v2 else f) K = true) :
    (K = Kf ∧ (c1 ∨ c2)) ∨ dhas f K = true := by
  by_cases hc1 : c1
  · rw [if_pos hc1] at h
    rcases dhas_dset_imp h with h1 | h1
    · exact .inl ⟨h1, .inl hc1⟩
    · exact .inr h1
  · rw [if_neg hc1] at h
    by_cases hc2 : c2
    · rw [if_pos hc2] at h
      rcases dhas_dset_imp h with h1 | h1
      · exact .inl ⟨h1, .inr hc2⟩
      · exact .inr h1
    · rw [if_neg hc2] at h
      exact .inr h

theorem dhas_datefrm_imp {c : Prop} [Decidable c]
    {f : List (String × String)} {Kf v K : String}
    (h : dhas (if c then dset f Kf v else f) K = true) :
    (K = Kf ∧ c) ∨ dhas f K = true := by
  by_cases hc : c
  · rw [if_pos hc] at h
    rcases dhas_dset_imp h with h1 | h1
    · exact .inl ⟨h1, hc⟩
    · exact .inr h1
  · rw [if_neg hc] at h
    exact .inr h

/-- Origin of every frame id `write_id3_v23_with_apic` adds: the frame
was written only because its respective reduced-map field is present and
truthy. -/
theorem write_frames_origin (src : List (String × String)) (K : String)
    (h : dhas (write_text_frames src) K = true) :
    (K = "TIT2" ∧ (dget src "title").getD "" ≠ "") ∨
    (K = "TALB" ∧ (dget src "album").getD "" ≠ "") ∨
    (K = "TPE1" ∧ (dget src "artist").getD "" ≠ "") ∨
    (K = "TPE2" ∧
      (orTruthy (dget src "albumartist") (dget src "album_artist")).getD "" ≠ "") ∨
    (K = "TCON" ∧ (dget src "genre").getD "" ≠ "") ∨
    (K = "TRCK" ∧ (dget src "track").getD "" ≠ "") ∨
    (K = "TPOS" ∧ (dget src "disc").getD "" ≠ "") ∨
    (K = "TDRC" ∧ (dget src "date").getD "" ≠ "") := by
  unfold write_text_frames at h
  dsimp only at h
  rcases dhas_datefrm_imp h with ⟨hK, hc⟩ | h
  · exact .inr (.inr (.inr (.inr (.inr (.inr (.inr ⟨hK, hc⟩))))))
  rcases dhas_numfrm_imp h with ⟨hK, hc⟩ | h
  · refine .inr (.inr (.inr (.inr (.inr (.inr (.inl ⟨hK, ?_⟩))))))
    rcases hc with ⟨h1, -⟩ | h1
    · exact h1
    · exact h1
  rcases dhas_numfrm_imp h with ⟨hK, hc⟩ | h
  · refine .inr (.inr (.inr (.inr (.inr (.inl ⟨hK, ?_⟩)))))
    rcases hc with ⟨h1, -⟩ | h1
    · exact h1
    · exact h1
  rcases dhas_set_text_imp h with ⟨hK, hv⟩ | h
  · exact .inr (.inr (.inr (.inr (.inl ⟨hK, hv⟩))))
  rcases dhas_set_text_imp h with ⟨hK, hv⟩ | h
  · exact .inr (.inr (.inr (.inl ⟨hK, hv⟩)))
  rcases dhas_set_text_imp h with ⟨hK, hv⟩ | h
  · exact .inr (.inr (.inl ⟨hK, hv⟩))
  rcases dhas_set_text_imp h with ⟨hK, hv⟩ | h
  · exact .inr (.inl ⟨hK, hv⟩)
  rcases dhas_set_text_imp h with ⟨hK, hv⟩ | h
  · exact .inl ⟨hK, hv⟩
  rw [dhas_nil] at h
  cases h

/-- TIT2 is always written when the reduced map's title is truthy. -/
theorem write_frames_tit2 (src : List (String × String))
    (h : (dget src "title").getD "" ≠ "") :
    dhas (write_text_frames src) "TIT2" = true := by
  unfold write_text_frames
  dsimp only
  simp only [dhas_ite_eq, dhas_set_text_eq, dhas_dset_eq, dhas_nil]
  simp [h]

/-- The title of the reduced tag map is always truthy for a nonempty
stem: either a truthy source title survived, or the stem was written. -/
theorem read_tags_title (stem : String) (m : SrcTags) (h : stem ≠ "") :
    (dget (read_source_tags stem (Option.some m)) "title").getD "" ≠ "" := by
  unfold read_source_tags
  dsimp only
  split
  · rw [dget_dset_eq, if_pos rfl]
    simpa using h
  · rename_i hc
    exact hc

theorem orTruthy_cases {a b : Option String}
    (h : (orTruthy a b).getD "" ≠ "") :
    a.getD "" ≠ "" ∨ b.getD "" ≠ "" := by
  cases a with
  | none => exact .inr h
  | some s =>
    have h0 : orTruthy (Option.some s) b = if s ≠ "" then Option.some s else b := rfl
    rw [h0] at h
    by_cases hs : s ≠ ""
    · rw [if_pos hs] at h
      exact .inl (by simpa using hs)
    · rw [if_neg hs] at h
      exact .inr h

theorem dhas_of_getD_ne (m : List (String × String)) (K : String)
    (h : (dget m K).getD "" ≠ "") : dhas m K = true := by
  rw [dhas_eq_isSome]
  cases hd : dget m K with
  | none => rw [hd] at h; simp at h
  | some s => rfl

/-- C9, counterexample.  The claim says a field absent from the source
is never written.  For a source with no tags at all, `read_source_tags`
falls back to the filename stem for the title, and the tagging stage
then writes a TIT2 frame holding the stem — a title frame written
although the source has no title field. -/
theorem C9_counterexample :
    read_source_tags "song" Option.none = [("title", "song")] ∧
    dget (write_text_frames (read_source_tags "song" Option.none)) "TIT2" =
      some "song" :=
  ⟨rfl, rfl⟩

/-- C9, amended: every reduced tag field *except the title* is written
into the produced file only if it is present (with a truthy value, under
one of its source spellings) in the source file's tags: a written
TALB/TPE1/TPE2/TCON/TDRC frame implies the corresponding source field
exists, and a written TRCK/TPOS frame implies some source track/disc
number key exists.  The title is the exception: for any source and any
nonempty filename stem a TIT2 frame is always written, falling back to
the stem when the source has no truthy title. -/
theorem C9_fields_written_only_if_present (stem : String) (m : SrcTags) :
    (dhas (write_text_frames (read_source_tags stem (Option.some m))) "TALB" = true →
      (sget m "album").isSome = true) ∧
    (dhas (write_text_frames (read_source_tags stem (Option.some m))) "TPE1" = true →
      (sget m "artist").isSome = true) ∧
    (dhas (write_text_frames (read_source_tags stem (Option.some m))) "TPE2" = true →
      (sget m "albumartist").isSome = true) ∧
    (dhas (write_text_frames (read_source_tags stem (Option.some m))) "TCON" = true →
      (sget m "genre").isSome = true) ∧
    (dhas (write_text_frames (read_source_tags stem (Option.some m))) "TDRC" = true →
      (sget m "date").isSome = true) ∧
    (dhas (write_text_frames (read_source_tags stem (Option.some m))) "TRCK" = true →
      (pull_any m ["tracknumber", "track", "trkn"]).isSome = true) ∧
    (dhas (write_text_frames (read_source_tags stem (Option.some m))) "TPOS" = true →
      (pull_any m ["discnumber", "disc", "disk"]).isSome = true) ∧
    (stem ≠ "" →
      dhas (write_text_frames (read_source_tags stem (Option.some m))) "TIT2" = true) := by
  refine ⟨?_, ?_, ?_, ?_, ?_, ?_, ?_, ?_⟩
  · intro h
    rcases write_frames_origin _ _ h with ⟨hK, -⟩ | ⟨-, hv⟩ | ⟨hK, -⟩ |
      ⟨hK, -⟩ | ⟨hK, -⟩ | ⟨hK, -⟩ | ⟨hK, -⟩ | ⟨hK, -⟩
    all_goals try exact absurd hK (by decide)
    have hhas := dhas_of_getD_ne _ _ hv
    rcases read_tags_origin stem m _ hhas with h1 | h1 | h1 | h1 | h1 | h1
    · exact absurd h1 (by decide)
    · exact h1.2
    · rcases h1.1 with h2 | h2 <;> exact absurd h2 (by decide)
    · exact absurd h1.1 (by decide)
    · rcases h1.1 with h2 | h2 <;> exact absurd h2 (by decide)
    · exact absurd h1.1 (by decide)
  · intro h
    rcases write_frames_origin _ _ h with ⟨hK, -⟩ | ⟨hK, -⟩ | ⟨-, hv⟩ |
      ⟨hK, -⟩ | ⟨hK, -⟩ | ⟨hK, -⟩ | ⟨hK, -⟩ | ⟨hK, -⟩
    all_goals try exact absurd hK (by decide)
    have hhas := dhas_of_getD_ne _ _ hv
    rcases read_tags_origin stem m _ hhas with h1 | h1 | h1 | h1 | h1 | h1
    · exact absurd h1 (by decide)
    · exact h1.2
    · rcases h1.1 with h2 | h2 <;> exact absurd h2 (by decide)
    · exact absurd h1.1 (by decide)
    · rcases h1.1 with h2 | h2 <;> exact absurd h2 (by decide)
    · exact absurd h1.1 (by decide)
  · intro h
    rcases write_frames_origin _ _ h with ⟨hK, -⟩ | ⟨hK, -⟩ | ⟨hK, -⟩ |
      ⟨-, hv⟩ | ⟨hK, -⟩ | ⟨hK, -⟩ | ⟨hK, -⟩ | ⟨hK, -⟩
    all_goals try exact absurd hK (by decide)
    rcases orTruthy_cases hv with hv1 | hv1
    · have hhas := dhas_of_getD_ne _ _ hv1
      rcases read_tags_origin stem m _ hhas with h1 | h1 | h1 | h1 | h1 | h1
      · exact absurd h1 (by decide)
      · exact h1.2
      · rcases h1.1 with h2 | h2 <;> exact absurd h2 (by decide)
      · exact absurd h1.1 (by decide)
      · rcases h1.1 with h2 | h2 <;> exact absurd h2 (by decide)
      · exact absurd h1.1 (by decide)
    · have hhas := dhas_of_getD_ne _ _ hv1
      rcases read_tags_origin stem m _ hhas with h1 | h1 | h1 | h1 | h1 | h1
      · exact absurd h1 (by decide)
      · rcases h1 with ⟨hm, -⟩
        simp only [List.mem_cons, List.not_mem_nil, or_false] at hm
        rcases hm with h2 | h2 | h2 | h2 | h2 <;> exact absurd h2 (by decide)
      · rcases h1.1 with h2 | h2 <;> exact absurd h2 (by decide)
      · exact absurd h1.1 (by decide)
      · rcases h1.1 with h2 | h2 <;> exact absurd h2 (by decide)
      · exact absurd h1.1 (by decide)
  · intro h
    rcases write_frames_origin _ _ h with ⟨hK, -⟩ | ⟨hK, -⟩ | ⟨hK, -⟩ |
      ⟨hK, -⟩ | ⟨-, hv⟩ | ⟨hK, -⟩ | ⟨hK, -⟩ | ⟨hK, -⟩
    all_goals try exact absurd hK (by decide)
    have hhas := dhas_of_getD_ne _ _ hv
    rcases read_tags_origin stem m _ hhas with h1 | h1 | h1 | h1 | h1 | h1
    · exact absurd h1 (by decide)
    · exact h1.2
    · rcases h1.1 with h2 | h2 <;> exact absurd h2 (by decide)
    · exact absurd h1.1 (by decide)
    · rcases h1.1 with h2 | h2 <;> exact absurd h2 (by decide)
    · exact absurd h1.1 (by decide)
  · intro h
    rcases write_frames_origin _ _ h with ⟨hK, -⟩ | ⟨hK, -⟩ | ⟨hK, -⟩ |
      ⟨hK, -⟩ | ⟨hK, -⟩ | ⟨hK, -⟩ | ⟨hK, -⟩ | ⟨-, hv⟩
    all_goals try exact absurd hK (by decide)
    have hhas := dhas_of_getD_ne _ _ hv
    rcases read_tags_origin stem m _ hhas with h1 | h1 | h1 | h1 | h1 | h1
    · exact absurd h1 (by decide)
    · exact h1.2
    · rcases h1.1 with h2 | h2 <;> exact absurd h2 (by decide)
    · exact absurd h1.1 (by decide)
    · rcases h1.1 with h2 | h2 <;> exact absurd h2 (by decide)
    · exact absurd h1.1 (by decide)
  · intro h
    rcases write_frames_origin _ _ h with ⟨hK, -⟩ | ⟨hK, -⟩ | ⟨hK, -⟩ |
      ⟨hK, -⟩ | ⟨hK, -⟩ | ⟨-, hv⟩ | ⟨hK, -⟩ | ⟨hK, -⟩
    all_goals try exact absurd hK (by decide)
    have hhas := dhas_of_getD_ne _ _ hv
    rcases read_tags_origin stem m _ hhas with h1 | h1 | h1 | h1 | h1 | h1
    · exact absurd h1 (by decide)
    · rcases h1 with ⟨hm, -⟩
      simp only [List.mem_cons, List.not_mem_nil, or_false] at hm
      rcases hm with h2 | h2 | h2 | h2 | h2 <;> exact absurd h2 (by decide)
    · exact h1.2
    · exact absurd h1.1 (by decide)
    · rcases h1.1 with h2 | h2 <;> exact absurd h2 (by decide)
    · exact absurd h1.1 (by decide)
  · intro h
    rcases write_frames_origin _ _ h with ⟨hK, -⟩ | ⟨hK, -⟩ | ⟨hK, -⟩ |
      ⟨hK, -⟩ | ⟨hK, -⟩ | ⟨hK, -⟩ | ⟨-, hv⟩ | ⟨hK, -⟩
    all_goals try exact absurd hK (by decide)
    have hhas := dhas_of_getD_ne _ _ hv
    rcases read_tags_origin stem m _ hhas with h1 | h1 | h1 | h1 | h1 | h1
    · exact absurd h1 (by decide)
    · rcases h1 with ⟨hm, -⟩
      simp only [List.mem_cons, List.not_mem_nil, or_false] at hm
      rcases hm with h2 | h2 | h2 | h2 | h2 <;> exact absurd h2 (by decide)
    · rcases h1.1 with h2 | h2 <;> exact absurd h2 (by decide)
    · exact absurd h1.1 (by decide)
    · exact h1.2
    · exact absurd h1.1 (by decide)
  · intro hstem
    exact write_frames_tit2 _ (read_tags_title stem m hstem)

/-- C9, witness: a source holding only an album field yields a TALB
frame, and the implication recovers the field's presence; the TIT2
fallback fires for any source with a nonempty stem. -/
theorem C9_witness :
    (sget [("album", MVal.prim (Prim.str "X"))] "album").isSome = true ∧
    dhas (write_text_frames (read_source_tags "song"
      (Option.some [("album", MVal.prim (Prim.str "X"))]))) "TIT2" = true :=
  ⟨(C9_fields_written_only_if_present "song"
      [("album", MVal.prim (Prim.str "X"))]).1 (by decide),
   (C9_fields_written_only_if_present "song"
      [("album", MVal.prim (Prim.str "X"))]).2.2.2.2.2.2.2 (by decide)⟩

end IpodFormat

